import Mathlib

/-!
TapTo: the daemon state store and the token launcher.

A shallow embedding of `pkg/daemon/state.go` and `pkg/launcher/commands.go`.

* The state store is a record; every method of `*State` becomes a function that
  takes the record (and, for a writer, returns the new record). The mutex is
  not represented: each function is one critical section.
* The launcher is a function of its arguments and of the answers of the
  programs it calls (`World`); it returns the error value together with the
  list of calls it made, in order.
-/

namespace Tapto

/-! ## pkg/daemon/state.go -/

/-- A reading of the clock (`time.Time`), as a count of ticks. -/
abbrev Time := Int

/-- A Go `map[string]string`; `none` is the nil map. -/
abbrev StrMap := Option (List (String × String))

/-- The struct `Token`. The field `Type` is spelled `Typ`, the source's name
being reserved. -/
structure Token where
  Typ : String
  UID : String
  Text : String
  ScanTime : Time
deriving DecidableEq, Repr

/-- The struct `State` without its mutex. -/
structure State where
  activeCard : Token
  lastScanned : Token
  stopService : Bool
  disableLauncher : Bool
  dbLoadTime : Time
  uidMap : StrMap
  textMap : StrMap
deriving DecidableEq, Repr

/-- The zero value of `Token`. -/
def Token.zero : Token := ⟨"", "", "", 0⟩

/-- The zero value of `State`, which is how the daemon creates its store. -/
def State.zero : State := ⟨Token.zero, Token.zero, false, false, 0, none, none⟩

/-- A line written to the log. -/
inductive LogLine where
  | cannotCreateDisableLaunchFile (err : String)
  | cannotRemoveDisableLaunchFile (err : String)
deriving DecidableEq, Repr

def State.SetActiveCard (s : State) (card : Token) : State :=
  let s1 := { s with activeCard := card }
  if s1.activeCard.UID ≠ "" then { s1 with lastScanned := card } else s1

def State.GetActiveCard (s : State) : Token := s.activeCard

def State.GetLastScanned (s : State) : Token := s.lastScanned

def State.StopService (s : State) : State := { s with stopService := true }

def State.ShouldStopService (s : State) : Bool := s.stopService

/-- The method `DisableLauncher`; `createErr` is what `os.Create` answered for
the marker file (`none` is a nil error). -/
def State.DisableLauncher (s : State) (createErr : Option String) : State × List LogLine :=
  let s1 := { s with disableLauncher := true }
  match createErr with
  | some err => (s1, [LogLine.cannotCreateDisableLaunchFile err])
  | none => (s1, [])

/-- The method `EnableLauncher`; `removeErr` is what `os.Remove` answered for
the marker file. -/
def State.EnableLauncher (s : State) (removeErr : Option String) : State × List LogLine :=
  let s1 := { s with disableLauncher := false }
  match removeErr with
  | some err => (s1, [LogLine.cannotRemoveDisableLaunchFile err])
  | none => (s1, [])

def State.IsLauncherDisabled (s : State) : Bool := s.disableLauncher

def State.GetDB (s : State) : StrMap × StrMap := (s.uidMap, s.textMap)

def State.GetDBLoadTime (s : State) : Time := s.dbLoadTime

/-- The method `SetDB`; `now` is the reading `time.Now()` gives inside the call. -/
def State.SetDB (s : State) (now : Time) (uidMap textMap : StrMap) : State :=
  let s1 := { s with dbLoadTime := now }
  let s2 := { s1 with uidMap := uidMap }
  { s2 with textMap := textMap }

/-- One call of a method of the store, with the inputs the call takes from
outside (the outcome of the marker-file operation, the clock). -/
inductive Op where
  | setActiveCard (card : Token)
  | getActiveCard
  | getLastScanned
  | stopService
  | shouldStopService
  | disableLauncher (createErr : Option String)
  | enableLauncher (removeErr : Option String)
  | isLauncherDisabled
  | getDB
  | getDBLoadTime
  | setDB (now : Time) (uidMap textMap : StrMap)
deriving DecidableEq, Repr

/-- The store after one call. The getters return a value and write nothing. -/
def State.step (s : State) : Op → State
  | .setActiveCard card => s.SetActiveCard card
  | .getActiveCard => s
  | .getLastScanned => s
  | .stopService => s.StopService
  | .shouldStopService => s
  | .disableLauncher e => (s.DisableLauncher e).1
  | .enableLauncher e => (s.EnableLauncher e).1
  | .isLauncherDisabled => s
  | .getDB => s
  | .getDBLoadTime => s
  | .setDB now u t => s.SetDB now u t

/-- The store after a sequence of calls, first call first. -/
def State.run (s : State) (ops : List Op) : State := ops.foldl State.step s

/-- The tokens handed to `SetActiveCard` in a sequence of calls, in order. -/
def setCards : List Op → List Token
  | [] => []
  | .setActiveCard card :: ops => card :: setCards ops
  | _ :: ops => setCards ops

/-- The tokens with a non-empty UID handed to `SetActiveCard`, in order. -/
def scannedCards (ops : List Op) : List Token :=
  (setCards ops).filter (fun c => c.UID ≠ "")

/-! ## The Go standard library, as far as `commands.go` uses it

Strings are lists of runes. The source's string literals are written
`"...".toList`. -/

/-- A Go string, read as its sequence of runes; the strings considered are
the well-formed UTF-8 ones. -/
abbrev Str := List Char

/-- The predicate `unicode.IsSpace`: the runes of the Unicode White_Space property. -/
def unicode.IsSpace (r : Char) : Bool :=
  r = '\t' || r = '\n' || r = '\x0b' || r = '\x0c' || r = '\r' || r = ' '
    || r = '\u0085' || r = '\u00a0' || r = '\u1680'
    || (0x2000 ≤ r.toNat && r.toNat ≤ 0x200a)
    || r = '\u2028' || r = '\u2029' || r = '\u202f' || r = '\u205f' || r = '\u3000'

/-- The function `unicode.ToLower`, on the runes whose lower case is an ASCII
letter: the ASCII capitals (`Char.toLower`), U+0130 (lower case `i`) and
U+212A (lower case `k`). The other runes are left as they are; their lower
case is never ASCII, so the comparisons of this program against ASCII literals
do not see the difference. -/
def unicode.ToLower (r : Char) : Char :=
  if r = '\u0130' then 'i'
  else if r = '\u212a' then 'k'
  else r.toLower

/-- The representative of a rune's orbit under `unicode.SimpleFold`, for the
orbits that hold an ASCII rune: a capital and its small letter
(`Char.toLower`), with U+212A in the orbit of `k` and U+017F in the orbit of
`s`. The other runes are left as they are; their orbits hold no ASCII rune, so
a comparison against an ASCII literal does not see the difference. -/
def unicode.foldRune (r : Char) : Char :=
  if r = '\u212a' then 'k'
  else if r = '\u017f' then 's'
  else r.toLower

def strings.HasPrefix (s pre : Str) : Bool := pre.isPrefixOf s

def strings.HasSuffix (s suffix : Str) : Bool := suffix.isSuffixOf s

def strings.TrimPrefix (s pre : Str) : Str :=
  if strings.HasPrefix s pre then s.drop pre.length else s

/-- The function `strings.TrimSpace`: leading and trailing white space removed. -/
def strings.TrimSpace (s : Str) : Str :=
  (s.dropWhile unicode.IsSpace).rdropWhile unicode.IsSpace

/-- The function `strings.ToLower`: every rune mapped by `unicode.ToLower`. -/
def strings.ToLower (s : Str) : Str := s.map unicode.ToLower

/-- The function `strings.EqualFold`: equality under simple case folding, rune
by rune. -/
def strings.EqualFold (s t : Str) : Bool := s.map unicode.foldRune = t.map unicode.foldRune

/-- The function `strings.SplitN(s, sep, n)` for a separator of one rune and
`n ≥ 0`: at most `n` pieces, the last one being the unsplit remainder. -/
def strings.SplitN (s : Str) (sep : Char) : Nat → List Str
  | 0 => []
  | 1 => [s]
  | n + 2 =>
    if sep ∈ s then
      s.takeWhile (fun c => c ≠ sep) ::
        strings.SplitN ((s.dropWhile (fun c => c ≠ sep)).tail) sep (n + 1)
    else [s]

/-- The function `strings.Split(s, sep)` for a separator of one rune: the
pieces between the separators, one more than there are separators. -/
def strings.Split (sep : Char) : Str → List Str
  | [] => [[]]
  | c :: cs =>
    if c = sep then [] :: strings.Split sep cs
    else
      match strings.Split sep cs with
      | p :: ps => (c :: p) :: ps
      | [] => [[c]]

/-- The function `strings.Join(elems, sep)` for a separator of one rune. -/
def strings.Join (sep : Char) : List Str → Str
  | [] => []
  | [e] => e
  | e :: es => e ++ sep :: strings.Join sep es

/-- The two errors of package `strconv`. -/
inductive strconv.Err where
  | ErrSyntax
  | ErrRange
deriving DecidableEq, Repr

/-- The digit loop of `strconv.ParseUint` in base 10, for the largest value
`maxVal` of the result: `n` is the value read so far. A rune that is no digit
is a syntax error; a product `n * 10` past 64 bits (`n ≥ cutoff`), or a sum
past 64 bits or past `maxVal`, is a range error; whichever comes first is
reported. -/
def strconv.parseDigits (maxVal : Nat) : Str → Nat → Except strconv.Err Nat
  | [], n => .ok n
  | c :: cs, n =>
    if c.isDigit then
      if n ≥ (2 ^ 64 - 1) / 10 + 1 then .error .ErrRange
      else
        let n1 := n * 10 + (c.toNat - '0'.toNat)
        if n1 > 2 ^ 64 - 1 ∨ n1 > maxVal then .error .ErrRange
        else strconv.parseDigits maxVal cs n1
    else .error .ErrSyntax

/-- The function `strconv.ParseUint(s, 10, intSize)`: the empty string is a
syntax error, and the digit loop runs with `maxVal = 2^intSize - 1`. -/
def strconv.ParseUint (intSize : Nat) (s : Str) : Except strconv.Err Nat :=
  if s = [] then .error .ErrSyntax
  else strconv.parseDigits (2 ^ intSize - 1) s 0

/-- The range test at the end of `strconv.ParseInt`, for a result of `intSize`
bits: `un` is the value of the digits and `neg` tells a minus sign. -/
def strconv.signedInRange (intSize : Nat) (neg : Bool) (un : Nat) : Except strconv.Err Int :=
  let cutoff := 2 ^ (intSize - 1)
  if !neg && un ≥ cutoff then .error .ErrRange
  else if neg && un > cutoff then .error .ErrRange
  else .ok (if neg then -(un : Int) else (un : Int))

/-- The function `strconv.ParseInt(s, 10, intSize)`: an optional sign, then
`strconv.ParseUint` on the rest, then the range test. -/
def strconv.ParseInt (intSize : Nat) (s : Str) : Except strconv.Err Int :=
  match s with
  | [] => .error .ErrSyntax
  | c :: cs =>
    let neg := decide (c = '-')
    let digits := if c = '+' ∨ c = '-' then cs else s
    match strconv.ParseUint intSize digits with
    | .error e => .error e
    | .ok un => strconv.signedInRange intSize neg un

/-- The function `strconv.Atoi`, for an `int` of `intSize` bits (32 or 64). Its
fast path for short strings computes what `ParseInt(s, 10, 0)` computes, which
is its slow path and what is written here. -/
def strconv.Atoi (intSize : Nat) (s : Str) : Except strconv.Err Int :=
  strconv.ParseInt intSize s

/-- The function `filepath.IsAbs` on Unix. -/
def filepath.IsAbs (path : Str) : Bool := strings.HasPrefix path "/".toList

/-- The loop of `filepath.Ext`, over the path read from its end: the runes
passed so far are `acc`. -/
def filepath.extLoop : Str → Str → Str
  | [], _ => []
  | c :: rest, acc =>
    if c = '/' then [] else if c = '.' then c :: acc else filepath.extLoop rest (c :: acc)

/-- The function `filepath.Ext`: the suffix of the last path element that starts
at its last dot, or the empty string. -/
def filepath.Ext (path : Str) : Str := filepath.extLoop path.reverse []

/-- The element loop of `filepath.Clean`: `out` is the stack of elements kept
so far, the last one first. -/
def filepath.cleanLoop (rooted : Bool) : List Str → List Str → List Str
  | [], out => out.reverse
  | e :: es, out =>
    if e = [] ∨ e = ".".toList then filepath.cleanLoop rooted es out
    else if e = "..".toList then
      match out with
      | top :: below =>
        if top = "..".toList then filepath.cleanLoop rooted es (e :: out)
        else filepath.cleanLoop rooted es below
      | [] => if rooted then filepath.cleanLoop rooted es [] else filepath.cleanLoop rooted es [e]
    else filepath.cleanLoop rooted es (e :: out)

/-- The function `filepath.Clean` on Unix: the shortest path naming the same
place by purely lexical processing. -/
def filepath.Clean (path : Str) : Str :=
  if path = [] then ".".toList
  else
    let rooted := strings.HasPrefix path "/".toList
    let body := strings.Join '/' (filepath.cleanLoop rooted (strings.Split '/' path) [])
    let out := if rooted then '/' :: body else body
    if out = [] then ".".toList else out

/-- The function `filepath.Join` on Unix: the elements from the first non-empty
one on, joined by the separator and cleaned; empty when all are empty. -/
def filepath.Join : List Str → Str
  | [] => []
  | e :: es => if e ≠ [] then filepath.Clean (strings.Join '/' (e :: es)) else filepath.Join es

/-! ## pkg/launcher/commands.go

The types of the configuration, of a system and of the keyboard are declared
in other packages and stay parameters: `Cfg` is `config.UserConfig`, `MCfg` the
configuration of the platform library, `Sys` is `games.System`, `Kbd` is
`input.Keyboard`. -/

/-- The error values `LaunchToken` returns. -/
inductive Error where
  /-- The text `invalid command: %s`. -/
  | invalidCommand (text : Str)
  /-- The text `commands must be manually run`. -/
  | commandsMustBeManuallyRun
  /-- The text `no system specified`. -/
  | noSystemSpecified
  /-- The text `no ini files found`. -/
  | noIniFilesFound
  /-- The text `ini id out of range: %d`. -/
  | iniIdOutOfRange (id : Int)
  /-- The text `unknown command: %s`. -/
  | unknownCommand (cmd : Str)
  /-- The text `could not find file: %s`. -/
  | couldNotFindFile (text : Str)
  /-- The error of `strconv.Atoi` on the string `num`. -/
  | numError (num : Str) (err : strconv.Err)
  /-- An error handed back by a function of another package. -/
  | external (msg : Str)
deriving DecidableEq, Repr

/-- The answers of everything `LaunchToken` calls outside its own file. An
answer `none` of type `Option Str` is a nil error. -/
structure World (Cfg MCfg Sys : Type) where
  /-- The width of `int` on the platform, in bits. -/
  intSize : Nat
  UserConfigToMrext : Cfg → MCfg
  LaunchMenu : Option Str
  LookupSystem : Str → Except Str Sys
  LaunchCore : MCfg → Sys → Option Str
  /-- The answer of `exec.Command("bash", "-c", args).Start()`. -/
  Start : Str → Option Str
  LaunchRandomGame : MCfg → List Sys → Option Str
  AllSystems : List Sys
  GetAllMisterIni : Except Str (List Str)
  SetActiveIni : Int → Option Str
  /-- The answer of `http.Get(url)`: its error. -/
  Get : Str → Option Str
  LaunchGenericFile : MCfg → Str → Option Str
  LaunchShortCore : Str → Option Str
  GetGamesFolders : MCfg → List Str
  /-- The answer of `os.Stat(path)`: its error. -/
  Stat : Str → Option Str

/-- A call `LaunchToken` makes outside its own file, with its arguments. -/
inductive Call (MCfg Sys Kbd : Type) where
  | LaunchMenu
  | LookupSystem (id : Str)
  | LaunchCore (cfg : MCfg) (system : Sys)
  /-- The call `exec.Command("bash", "-c", args).Start()`. -/
  | Start (args : Str)
  | LaunchRandomGame (cfg : MCfg) (systems : List Sys)
  | AllSystems
  | GetAllMisterIni
  | SetActiveIni (id : Int)
  /-- The statement `go func() { _, _ = http.Get(url) }()`. -/
  | goGet (url : Str)
  | Press (kbd : Kbd) (code : Int)
  /-- The call `time.Sleep`, its argument in milliseconds. -/
  | Sleep (ms : Nat)
  | LaunchGenericFile (cfg : MCfg) (path : Str)
  | LaunchShortCore (name : Str)
  | GetGamesFolders (cfg : MCfg)
  | Stat (path : Str)
deriving DecidableEq, Repr

deriving instance DecidableEq for Except

/-- What a run of `LaunchToken` gives: the returned error value and the calls
made, in order. -/
structure Outcome (MCfg Sys Kbd : Type) where
  result : Except Error Unit
  calls : List (Call MCfg Sys Kbd)
deriving DecidableEq

/-- The error value of another package as a result of `LaunchToken`. -/
def returned : Option Str → Except Error Unit
  | none => .ok ()
  | some e => .error (.external e)

section Launcher

variable {Cfg MCfg Sys Kbd : Type}

/-- The loop `for i := 0; i < amount; i++ { kbd.Press(code); time.Sleep(100ms) }`,
with `n` rounds left. -/
def coinLoop (kbd : Kbd) (code : Int) : Nat → List (Call MCfg Sys Kbd)
  | 0 => []
  | n + 1 => .Press kbd code :: .Sleep 100 :: coinLoop kbd code n

/-- The `switch cmd` of `LaunchToken` (lines 57 to 158). -/
def runCommand (W : World Cfg MCfg Sys) (cfg : Cfg) (manual : Bool) (kbd : Kbd)
    (cmd args : Str) : Outcome MCfg Sys Kbd :=
  if cmd = "system".toList then
    if strings.EqualFold args "menu".toList then
      ⟨returned W.LaunchMenu, [.LaunchMenu]⟩
    else
      match W.LookupSystem args with
      | .error err => ⟨.error (.external err), [.LookupSystem args]⟩
      | .ok system =>
        ⟨returned (W.LaunchCore (W.UserConfigToMrext cfg) system),
          [.LookupSystem args, .LaunchCore (W.UserConfigToMrext cfg) system]⟩
  else if cmd = "command".toList then
    if !manual then ⟨.error .commandsMustBeManuallyRun, []⟩
    else
      match W.Start args with
      | some err => ⟨.error (.external err), [.Start args]⟩
      | none => ⟨.ok (), [.Start args]⟩
  else if cmd = "random".toList then
    if args = [] then ⟨.error .noSystemSpecified, []⟩
    else if args = "all".toList then
      ⟨returned (W.LaunchRandomGame (W.UserConfigToMrext cfg) W.AllSystems),
        [.AllSystems, .LaunchRandomGame (W.UserConfigToMrext cfg) W.AllSystems]⟩
    else
      match W.LookupSystem args with
      | .error err => ⟨.error (.external err), [.LookupSystem args]⟩
      | .ok system =>
        ⟨returned (W.LaunchRandomGame (W.UserConfigToMrext cfg) [system]),
          [.LookupSystem args, .LaunchRandomGame (W.UserConfigToMrext cfg) [system]]⟩
  else if cmd = "ini".toList then
    match W.GetAllMisterIni with
    | .error err => ⟨.error (.external err), [.GetAllMisterIni]⟩
    | .ok inis =>
      if inis.length = 0 then ⟨.error .noIniFilesFound, [.GetAllMisterIni]⟩
      else
        match strconv.Atoi W.intSize args with
        | .error err => ⟨.error (.numError args err), [.GetAllMisterIni]⟩
        | .ok id =>
          if id < 1 ∨ id > (inis.length : Int) then
            ⟨.error (.iniIdOutOfRange id), [.GetAllMisterIni]⟩
          else ⟨returned (W.SetActiveIni id), [.GetAllMisterIni, .SetActiveIni id]⟩
  else if cmd = "get".toList then
    ⟨.ok (), [.goGet args]⟩
  else if cmd = "key".toList then
    match strconv.Atoi W.intSize args with
    | .error err => ⟨.error (.numError args err), []⟩
    | .ok code => ⟨.ok (), [.Press kbd code]⟩
  else if cmd = "coinp1".toList then
    match strconv.Atoi W.intSize args with
    | .error err => ⟨.error (.numError args err), []⟩
    | .ok amount => ⟨.ok (), coinLoop kbd 6 amount.toNat⟩
  else if cmd = "coinp2".toList then
    match strconv.Atoi W.intSize args with
    | .error err => ⟨.error (.numError args err), []⟩
    | .ok amount => ⟨.ok (), coinLoop kbd 7 amount.toNat⟩
  else ⟨.error (.unknownCommand cmd), []⟩

/-- The loop `for i, part := range parts` of line 173 up to its test: the index
of the first part that ends in `.zip` in lower case, `i` being the index of
the head of the list. -/
def zipIndex : List Str → Nat → Option Nat
  | [], _ => none
  | part :: rest, i =>
    if strings.HasSuffix (strings.ToLower part) ".zip".toList then some i
    else zipIndex rest (i + 1)

/-- The loops `for _, folder := range ...` of lines 176 and 186: the first
folder under which `rel` exists, and the calls of `os.Stat` made. -/
def statLoop (W : World Cfg MCfg Sys) (rel : Str) :
    List Str → Option Str × List (Call MCfg Sys Kbd)
  | [] => (none, [])
  | folder :: rest =>
    match W.Stat (filepath.Join [folder, rel]) with
    | none => (some folder, [.Stat (filepath.Join [folder, rel])])
    | some _ =>
      ((statLoop W rel rest).1, .Stat (filepath.Join [folder, rel]) :: (statLoop W rel rest).2)

/-- The last loop of `LaunchToken` and its final `return` (lines 185 to 193). -/
def launchWholePath (W : World Cfg MCfg Sys) (cfg : Cfg) (text : Str) : Outcome MCfg Sys Kbd :=
  let folders := W.GetGamesFolders (W.UserConfigToMrext cfg)
  match statLoop W text folders with
  | (some folder, stats) =>
    ⟨returned (W.LaunchGenericFile (W.UserConfigToMrext cfg) (filepath.Join [folder, text])),
      .GetGamesFolders (W.UserConfigToMrext cfg) :: stats ++
        [.LaunchGenericFile (W.UserConfigToMrext cfg) (filepath.Join [folder, text])]⟩
  | (none, stats) =>
    ⟨.error (.couldNotFindFile text), .GetGamesFolders (W.UserConfigToMrext cfg) :: stats⟩

/-- The part of `LaunchToken` for a text that is no command (lines 161 to 193). -/
def launchPath (W : World Cfg MCfg Sys) (cfg : Cfg) (text : Str) : Outcome MCfg Sys Kbd :=
  if filepath.IsAbs text then
    ⟨returned (W.LaunchGenericFile (W.UserConfigToMrext cfg) text),
      [.LaunchGenericFile (W.UserConfigToMrext cfg) text]⟩
  else if filepath.Ext text = [] then
    ⟨returned (W.LaunchShortCore text), [.LaunchShortCore text]⟩
  else
    let parts := strings.Split '/' text
    match zipIndex parts 0 with
    | some i =>
      let zipPath := filepath.Join (parts.take (i + 1))
      let folders := W.GetGamesFolders (W.UserConfigToMrext cfg)
      match statLoop W zipPath folders with
      | (some folder, stats) =>
        ⟨returned (W.LaunchGenericFile (W.UserConfigToMrext cfg) (filepath.Join [folder, text])),
          .GetGamesFolders (W.UserConfigToMrext cfg) :: stats ++
            [.LaunchGenericFile (W.UserConfigToMrext cfg) (filepath.Join [folder, text])]⟩
      | (none, stats) =>
        let rest : Outcome MCfg Sys Kbd := launchWholePath W cfg text
        ⟨rest.result, .GetGamesFolders (W.UserConfigToMrext cfg) :: stats ++ rest.calls⟩
    | none => launchWholePath W cfg text

/-- The function `LaunchToken`. -/
def LaunchToken (W : World Cfg MCfg Sys) (cfg : Cfg) (manual : Bool) (kbd : Kbd)
    (text : Str) : Outcome MCfg Sys Kbd :=
  if strings.HasPrefix text "**".toList then
    let text := strings.TrimPrefix text "**".toList
    let parts := strings.SplitN text ':' 2
    if parts.length < 2 then ⟨.error (.invalidCommand text), []⟩
    else
      let cmd := strings.TrimSpace (parts.getD 0 [])
      let args := strings.TrimSpace (parts.getD 1 [])
      runCommand W cfg manual kbd cmd args
  else launchPath W cfg text

end Launcher

/-! ## Sample inputs -/

/-- A token read from a tag. -/
def sampleCard : Token := ⟨"ntag", "04a1b2c3", "**system:menu", 17⟩

/-- The token that reports the removal of the tag: its UID is empty. -/
def removedCard : Token := ⟨"", "", "", 18⟩

/-- The value of a string of decimal digits, the first digit weighing most. -/
def decimalValue (ds : Str) : Nat :=
  ds.foldl (fun n c => n * 10 + (c.toNat - '0'.toNat)) 0

/-- The value of a non-empty string of decimal digits; `none` for any other
string. -/
def decimalNat (ds : Str) : Option Nat :=
  if ds ≠ [] ∧ ds.all Char.isDigit = true then some (decimalValue ds) else none

/-- What it is for a string to be written as a decimal integer, read from the
words of the specification and not from `strconv`: an optional sign `+` or `-`
and then one or more decimal digits, of any length, with the value as a
mathematical integer; `none` for any other string. -/
def decimalInt : Str → Option Int
  | [] => none
  | c :: cs =>
    if c = '+' then (decimalNat cs).map (fun n => (n : Int))
    else if c = '-' then (decimalNat cs).map (fun n => -(n : Int))
    else (decimalNat (c :: cs)).map (fun n => (n : Int))

/-- The command names of the `switch` of `LaunchToken`. -/
def commandNames : List Str :=
  ["system".toList, "command".toList, "random".toList, "ini".toList, "get".toList,
    "key".toList, "coinp1".toList, "coinp2".toList]

/-- A world for the examples: an `int` of 64 bits, the one system `nes` (number
1) out of three, two profiles, two content roots with one archive under the
second, and every launch succeeding. -/
def sampleWorld : World Unit Unit Nat where
  intSize := 64
  UserConfigToMrext := id
  LaunchMenu := none
  LookupSystem := fun id =>
    if id = "nes".toList then .ok 1 else .error ("unknown system: ".toList ++ id)
  LaunchCore := fun _ _ => none
  Start := fun _ => none
  LaunchRandomGame := fun _ _ => none
  AllSystems := [1, 2, 3]
  GetAllMisterIni := .ok ["MiSTer.ini".toList, "MiSTer_alt_1.ini".toList]
  SetActiveIni := fun _ => none
  Get := fun _ => some "connection refused".toList
  LaunchGenericFile := fun _ _ => none
  LaunchShortCore := fun _ => none
  GetGamesFolders := fun _ => ["/media/fat".toList, "/media/usb0".toList]
  Stat := fun path =>
    if path = "/media/usb0/games/Foo.zip".toList then none
    else some "no such file or directory".toList

/-- The sample world on a system where `bash` cannot be started. -/
def noShellWorld : World Unit Unit Nat :=
  { sampleWorld with Start := fun _ => some "executable file not found in $PATH".toList }

/-- The loop that writes a natural number in decimal, last digit first in
time and so first digit first in `acc`; `fuel` bounds the number of digits. -/
def decimalLoop : Nat → Nat → Str → Str
  | 0, _, acc => acc
  | fuel + 1, n, acc =>
    if n / 10 = 0 then Nat.digitChar (n % 10) :: acc
    else decimalLoop fuel (n / 10) (Nat.digitChar (n % 10) :: acc)

/-- The decimal writing of a natural number, without sign or leading zero. -/
def decimalString (n : Nat) : Str := decimalLoop (n + 1) n []

/-- The time a trace spends in `time.Sleep`, in milliseconds. -/
def elapsedMs {MCfg Sys Kbd : Type} : List (Call MCfg Sys Kbd) → Nat
  | [] => 0
  | .Sleep ms :: rest => ms + elapsedMs rest
  | _ :: rest => elapsedMs rest

/-- The key codes a trace presses, in order. -/
def pressedCodes {MCfg Sys Kbd : Type} : List (Call MCfg Sys Kbd) → List Int
  | [] => []
  | .Press _ code :: rest => code :: pressedCodes rest
  | _ :: rest => pressedCodes rest

/-- The calls of the store that only read: the six getters. -/
def Op.isRead : Op → Bool
  | .getActiveCard => true
  | .getLastScanned => true
  | .shouldStopService => true
  | .isLauncherDisabled => true
  | .getDB => true
  | .getDBLoadTime => true
  | _ => false

/-- The sample world with one file, and no archive, under the second content
root. -/
def romWorld : World Unit Unit Nat :=
  { sampleWorld with
    Stat := fun path =>
      if path = "/media/usb0/games/NES/mario.nes".toList then none
      else some "no such file or directory".toList }

/-- Two mappings for the database of the store. -/
def sampleUidMap : StrMap := some [("04a1b2c3", "**system:menu")]

/-- The second of the two mappings. -/
def sampleTextMap : StrMap := some [("mario", "games/NES/mario.nes")]

/-- The sample world on a platform where every launch fails: the menu, a
core, a file and a short core each hand back an error of their own. -/
def failingLaunchWorld : World Unit Unit Nat :=
  { sampleWorld with
    LaunchMenu := some "cannot open menu".toList
    LaunchCore := fun _ _ => some "cannot launch core".toList
    LaunchGenericFile := fun _ _ => some "cannot launch file".toList
    LaunchShortCore := fun _ => some "cannot launch short core".toList }

/-! ## The state store: theorems -/

theorem State.run_cons (s : State) (op : Op) (ops : List Op) :
    s.run (op :: ops) = (s.step op).run ops := rfl

theorem State.run_append (s : State) (ops more : List Op) :
    s.run (ops ++ more) = (s.run ops).run more := by
  simp [State.run, List.foldl_append]

/-- The active token after a sequence of calls is the last token set, or the
one held before when none was set. -/
theorem State.run_activeCard (ops : List Op) (s : State) :
    (s.run ops).activeCard = (setCards ops).getLast?.getD s.activeCard := by
  induction ops generalizing s with
  | nil => rfl
  | cons op ops ih =>
    rw [State.run_cons, ih]
    cases op <;>
      simp [State.step, setCards, State.SetActiveCard, State.StopService, State.DisableLauncher,
        State.EnableLauncher, State.SetDB, List.getLast?_cons] <;>
      split <;> rfl

/-- The last scanned token after a sequence of calls is the last token set
with a non-empty UID, or the one held before when there was none. -/
theorem State.run_lastScanned (ops : List Op) (s : State) :
    (s.run ops).lastScanned = (scannedCards ops).getLast?.getD s.lastScanned := by
  induction ops generalizing s with
  | nil => rfl
  | cons op ops ih =>
    rw [State.run_cons, ih]
    cases op with
    | setActiveCard card =>
      by_cases h : card.UID = ""
      · simp [State.step, scannedCards, setCards, State.SetActiveCard, h]
      · simp [State.step, scannedCards, setCards, State.SetActiveCard, h, List.getLast?_cons]
    | disableLauncher e =>
      cases e <;> simp [State.step, scannedCards, setCards, State.DisableLauncher]
    | enableLauncher e =>
      cases e <;> simp [State.step, scannedCards, setCards, State.EnableLauncher]
    | _ => simp [State.step, scannedCards, setCards, State.StopService, State.SetDB]

/-- A non-empty UID of the last scanned token survives every call. -/
theorem State.step_lastScanned_UID (s : State) (op : Op) (h : s.lastScanned.UID ≠ "") :
    (s.step op).lastScanned.UID ≠ "" := by
  cases op with
  | setActiveCard card =>
    by_cases hc : card.UID = ""
    · simpa [State.step, State.SetActiveCard, hc] using h
    · simp [State.step, State.SetActiveCard, hc]
  | disableLauncher e => cases e <;> simpa [State.step, State.DisableLauncher] using h
  | enableLauncher e => cases e <;> simpa [State.step, State.EnableLauncher] using h
  | _ => simpa [State.step, State.StopService, State.SetDB] using h

theorem State.run_lastScanned_UID (ops : List Op) (s : State) (h : s.lastScanned.UID ≠ "") :
    (s.run ops).lastScanned.UID ≠ "" := by
  induction ops generalizing s with
  | nil => exact h
  | cons op ops ih => exact ih _ (State.step_lastScanned_UID s op h)

/-- C1: `SetActiveCard(T)` makes `GetActiveCard()` return `T`; it makes
`GetLastScanned()` return `T` when `T.UID` is non-empty and leaves it as it was
when `T.UID` is empty. -/
theorem C1_SetActiveCard (s : State) (T : Token) :
    (s.SetActiveCard T).GetActiveCard = T ∧
    (T.UID ≠ "" → (s.SetActiveCard T).GetLastScanned = T) ∧
    (T.UID = "" → (s.SetActiveCard T).GetLastScanned = s.GetLastScanned) := by
  refine ⟨?_, ?_, ?_⟩
  · unfold State.SetActiveCard State.GetActiveCard
    dsimp only
    split <;> rfl
  · intro h
    simp [State.SetActiveCard, State.GetLastScanned, h]
  · intro h
    simp [State.SetActiveCard, State.GetLastScanned, h]

/-- C1 at a scanned token and at the removal token, both on a store that
already holds a scan. -/
theorem C1_SetActiveCard_witness :
    ((State.zero.SetActiveCard sampleCard).SetActiveCard removedCard).GetLastScanned = sampleCard ∧
    (State.zero.SetActiveCard sampleCard).GetLastScanned = sampleCard :=
  ⟨((C1_SetActiveCard (State.zero.SetActiveCard sampleCard) removedCard).2.2 (by decide)).trans
      ((C1_SetActiveCard State.zero sampleCard).2.1 (by decide)),
    (C1_SetActiveCard State.zero sampleCard).2.1 (by decide)⟩

/-- C2: from the zero-value store, after any sequence of calls `GetActiveCard()`
is the token of the last `SetActiveCard` (the zero token if there was none),
`GetLastScanned()` is the token of the last `SetActiveCard` with a non-empty UID
(the zero token if there was none), and a last scanned token with a non-empty
UID keeps a non-empty UID through every further sequence of calls. -/
theorem C2_run_from_zero (ops : List Op) :
    (State.zero.run ops).GetActiveCard = (setCards ops).getLast?.getD Token.zero ∧
    (State.zero.run ops).GetLastScanned = (scannedCards ops).getLast?.getD Token.zero ∧
    ∀ more : List Op, (State.zero.run ops).GetLastScanned.UID ≠ "" →
      (State.zero.run (ops ++ more)).GetLastScanned.UID ≠ "" := by
  refine ⟨State.run_activeCard ops State.zero, State.run_lastScanned ops State.zero, ?_⟩
  intro more h
  rw [State.run_append]
  exact State.run_lastScanned_UID more _ h

/-- C2 on a scan followed by a removal, a stop request and a reload of the
database: the last scanned token still has its UID. -/
theorem C2_run_from_zero_witness :
    (State.zero.run ([Op.setActiveCard sampleCard] ++
      [Op.setActiveCard removedCard, Op.stopService, Op.setDB 20 none none])).GetLastScanned.UID
        ≠ "" :=
  (C2_run_from_zero [Op.setActiveCard sampleCard]).2.2
    [Op.setActiveCard removedCard, Op.stopService, Op.setDB 20 none none] (by decide)

/-! ## The launcher: the result of a function of another package -/

/-- A nil error of another package is returned as success. -/
theorem returned_none : returned none = .ok () := rfl

/-- An error of another package is returned as it is. -/
theorem returned_some (e : Str) : returned (some e) = .error (.external e) := rfl

/-- The result is success exactly when the other package handed back nil. -/
theorem returned_ok_iff (r : Option Str) : returned r = .ok () ↔ r = none := by
  cases r with
  | none => exact ⟨fun _ => rfl, fun _ => rfl⟩
  | some e =>
    constructor
    · intro h
      cases h
    · intro h
      cases h

/-! ## The launcher: the command grammar -/

theorem strings.takeWhile_ne_sep (sep : Char) (c a : Str) (hc : sep ∉ c) :
    (c ++ sep :: a).takeWhile (fun x => x ≠ sep) = c := by
  induction c with
  | nil => simp
  | cons x c ih =>
    have hx : x ≠ sep := fun h => hc (by simp [h])
    have hc2 : sep ∉ c := fun h => hc (List.mem_cons_of_mem _ h)
    simpa [List.takeWhile_cons, hx] using ih hc2

theorem strings.dropWhile_ne_sep (sep : Char) (c a : Str) (hc : sep ∉ c) :
    (c ++ sep :: a).dropWhile (fun x => x ≠ sep) = sep :: a := by
  induction c with
  | nil => simp
  | cons x c ih =>
    have hx : x ≠ sep := fun h => hc (by simp [h])
    have hc2 : sep ∉ c := fun h => hc (List.mem_cons_of_mem _ h)
    simpa [List.dropWhile_cons, hx] using ih hc2

/-- Splitting in two at the first separator. -/
theorem strings.SplitN_two (sep : Char) (c a : Str) (hc : sep ∉ c) :
    strings.SplitN (c ++ sep :: a) sep 2 = [c, a] := by
  have h1 := strings.takeWhile_ne_sep sep c a hc
  have h2 := strings.dropWhile_ne_sep sep c a hc
  simp only [strings.SplitN, h1, h2]
  simp

/-- Without a separator there is one piece. -/
theorem strings.SplitN_none (sep : Char) (s : Str) (h : sep ∉ s) :
    strings.SplitN s sep 2 = [s] := by
  simp [strings.SplitN, h]

/-- A string that holds the separator is a part without it, the separator, and
a remainder. -/
theorem strings.exists_cut (sep : Char) (s : Str) (h : sep ∈ s) :
    ∃ c a, sep ∉ c ∧ s = c ++ sep :: a := by
  induction s with
  | nil => simp at h
  | cons x s ih =>
    by_cases hx : x = sep
    · exact ⟨[], s, by simp, by simp [hx]⟩
    · have hs : sep ∈ s := by
        rcases List.mem_cons.1 h with h1 | h1
        · exact absurd h1.symm hx
        · exact h1
      obtain ⟨c, a, hc, hsa⟩ := ih hs
      refine ⟨x :: c, a, ?_, by simp [hsa]⟩
      intro hmem
      rcases List.mem_cons.1 hmem with h1 | h1
      · exact hx h1.symm
      · exact hc h1

section LauncherGrammar

variable {Cfg MCfg Sys Kbd : Type}

/-- A text `**c:a`, with no colon in `c`, runs the command `trim c` on the
argument `trim a`. -/
theorem LaunchToken_command (W : World Cfg MCfg Sys) (cfg : Cfg) (manual : Bool) (kbd : Kbd)
    (c a : Str) (hc : ':' ∉ c) :
    LaunchToken W cfg manual kbd ("**".toList ++ (c ++ ':' :: a)) =
      runCommand W cfg manual kbd (strings.TrimSpace c) (strings.TrimSpace a) := by
  have hp : strings.HasPrefix ("**".toList ++ (c ++ ':' :: a)) "**".toList = true := by
    simp [strings.HasPrefix]
  have ht : strings.TrimPrefix ("**".toList ++ (c ++ ':' :: a)) "**".toList = c ++ ':' :: a := by
    simp [strings.TrimPrefix, strings.HasPrefix]
  simp only [LaunchToken, hp, ht, if_true, strings.SplitN_two ':' c a hc]
  simp

/-- A text `**rest` without a colon is an invalid command. -/
theorem LaunchToken_no_colon (W : World Cfg MCfg Sys) (cfg : Cfg) (manual : Bool) (kbd : Kbd)
    (rest : Str) (h : ':' ∉ rest) :
    LaunchToken W cfg manual kbd ("**".toList ++ rest) =
      (⟨.error (.invalidCommand rest), []⟩ : Outcome MCfg Sys Kbd) := by
  have hp : strings.HasPrefix ("**".toList ++ rest) "**".toList = true := by
    simp [strings.HasPrefix]
  have ht : strings.TrimPrefix ("**".toList ++ rest) "**".toList = rest := by
    simp [strings.TrimPrefix, strings.HasPrefix]
  simp only [LaunchToken, hp, ht, if_true, strings.SplitN_none ':' rest h]
  simp

end LauncherGrammar

/-! ## The launcher: the shell is reached by hand only -/

section LauncherShell

variable {Cfg MCfg Sys Kbd : Type}

theorem coinLoop_no_Start (kbd : Kbd) (code : Int) (n : Nat) (args : Str) :
    Call.Start args ∉ (coinLoop kbd code n : List (Call MCfg Sys Kbd)) := by
  induction n with
  | zero => simp [coinLoop]
  | succ n ih => simp [coinLoop, ih]

theorem statLoop_no_Start (W : World Cfg MCfg Sys) (rel : Str) (folders : List Str) (args : Str) :
    Call.Start args ∉ ((statLoop W rel folders).2 : List (Call MCfg Sys Kbd)) := by
  induction folders with
  | nil => simp [statLoop]
  | cons folder rest ih =>
    unfold statLoop
    split
    · simp
    · simp [ih]

theorem launchWholePath_no_Start (W : World Cfg MCfg Sys) (cfg : Cfg) (text args : Str) :
    Call.Start args ∉ (launchWholePath W cfg text : Outcome MCfg Sys Kbd).calls := by
  have h := @statLoop_no_Start Cfg MCfg Sys Kbd W text (W.GetGamesFolders (W.UserConfigToMrext cfg)) args
  rcases hst : (statLoop W text (W.GetGamesFolders (W.UserConfigToMrext cfg)) :
      Option Str × List (Call MCfg Sys Kbd)) with ⟨_ | folder, stats⟩ <;>
    rw [hst] at h <;> simp [launchWholePath, hst] <;> simpa using h

theorem launchPath_no_Start (W : World Cfg MCfg Sys) (cfg : Cfg) (text args : Str) :
    Call.Start args ∉ (launchPath W cfg text : Outcome MCfg Sys Kbd).calls := by
  unfold launchPath
  split_ifs
  · simp
  · simp
  · dsimp only
    split
    · rename_i i _
      have h := @statLoop_no_Start Cfg MCfg Sys Kbd W
        (filepath.Join ((strings.Split '/' text).take (i + 1)))
        (W.GetGamesFolders (W.UserConfigToMrext cfg)) args
      have h2 := @launchWholePath_no_Start Cfg MCfg Sys Kbd W cfg text args
      rcases hst : (statLoop W (filepath.Join ((strings.Split '/' text).take (i + 1)))
          (W.GetGamesFolders (W.UserConfigToMrext cfg)) :
          Option Str × List (Call MCfg Sys Kbd)) with ⟨_ | folder, stats⟩ <;>
        rw [hst] at h <;> simp at h ⊢ <;> simp [h, h2]
    · exact launchWholePath_no_Start W cfg text args

theorem runCommand_no_Start (W : World Cfg MCfg Sys) (cfg : Cfg) (kbd : Kbd) (cmd a args : Str) :
    Call.Start args ∉ (runCommand W cfg false kbd cmd a).calls := by
  unfold runCommand
  split_ifs <;> (try split) <;> (try split_ifs) <;> (try split) <;> (try split_ifs) <;>
    simp_all [coinLoop_no_Start]

/-- With `manual` false no call of `LaunchToken` starts a shell. -/
theorem LaunchToken_no_Start (W : World Cfg MCfg Sys) (cfg : Cfg) (kbd : Kbd) (text args : Str) :
    Call.Start args ∉ (LaunchToken W cfg false kbd text).calls := by
  unfold LaunchToken
  split_ifs
  · dsimp only
    split_ifs
    · simp
    · exact runCommand_no_Start W cfg kbd _ _ args
  · exact launchPath_no_Start W cfg text args

/-- C3: with `manual` false `LaunchToken` starts no shell command, whatever the
text and the configuration; on `**command:a` it returns the error `commands
must be manually run` and calls nothing. -/
theorem C3_command_needs_manual (W : World Cfg MCfg Sys) (cfg : Cfg) (kbd : Kbd) (text : Str) :
    (∀ args : Str, Call.Start args ∉ (LaunchToken W cfg false kbd text).calls) ∧
    ∀ a : Str, LaunchToken W cfg false kbd ("**command:".toList ++ a) =
      (⟨.error .commandsMustBeManuallyRun, []⟩ : Outcome MCfg Sys Kbd) := by
  refine ⟨fun args => LaunchToken_no_Start W cfg kbd text args, fun a => ?_⟩
  have h := LaunchToken_command W cfg false kbd "command".toList a (by decide)
  have ht : strings.TrimSpace "command".toList = "command".toList := by decide
  rw [ht] at h
  have hl : "**command:".toList ++ a = "**".toList ++ ("command".toList ++ ':' :: a) := rfl
  rw [hl, h]
  simp [runCommand]

end LauncherShell

/-! ## The launcher: errors of the grammar, and the two detached actions -/

section LauncherErrors

variable {Cfg MCfg Sys Kbd : Type}

/-- A command name outside the `switch` is rejected without any call. -/
theorem runCommand_unknown (W : World Cfg MCfg Sys) (cfg : Cfg) (manual : Bool) (kbd : Kbd)
    (cmd args : Str) (h : cmd ∉ commandNames) :
    runCommand W cfg manual kbd cmd args = ⟨.error (.unknownCommand cmd), []⟩ := by
  simp only [commandNames, List.mem_cons, List.mem_singleton, not_or, List.not_mem_nil,
    not_false_eq_true, and_true] at h
  obtain ⟨h1, h2, h3, h4, h5, h6, h7, h8⟩ := h
  simp only [runCommand, h1, h2, h3, h4, h5, h6, h7, h8, if_false]

/-- C4, as the code has it: `**get:a` returns success and only detaches the
request, whatever the world answers; `**command:a` run by hand calls `Start`
once, returns success when `Start` succeeded (the process is never waited for)
and returns the error of `Start` when it failed. -/
theorem C4_detached_actions (W : World Cfg MCfg Sys) (cfg : Cfg) (manual : Bool) (kbd : Kbd)
    (a : Str) :
    LaunchToken W cfg manual kbd ("**get:".toList ++ a) =
      (⟨.ok (), [.goGet (strings.TrimSpace a)]⟩ : Outcome MCfg Sys Kbd) ∧
    (LaunchToken W cfg true kbd ("**command:".toList ++ a)).calls =
      [.Start (strings.TrimSpace a)] ∧
    (W.Start (strings.TrimSpace a) = none →
      (LaunchToken W cfg true kbd ("**command:".toList ++ a)).result = .ok ()) ∧
    (∀ err, W.Start (strings.TrimSpace a) = some err →
      (LaunchToken W cfg true kbd ("**command:".toList ++ a)).result = .error (.external err)) := by
  have hg := LaunchToken_command W cfg manual kbd "get".toList a (by decide)
  have hc := LaunchToken_command W cfg true kbd "command".toList a (by decide)
  have htg : strings.TrimSpace "get".toList = "get".toList := by decide
  have htc : strings.TrimSpace "command".toList = "command".toList := by decide
  rw [htg] at hg
  rw [htc] at hc
  have hlg : "**get:".toList ++ a = "**".toList ++ ("get".toList ++ ':' :: a) := rfl
  have hlc : "**command:".toList ++ a = "**".toList ++ ("command".toList ++ ':' :: a) := rfl
  rw [hlg, hlc, hg, hc]
  refine ⟨by simp [runCommand], ?_, ?_, ?_⟩
  · cases hs : W.Start (strings.TrimSpace a) <;> simp [runCommand, hs]
  · intro hs
    simp [runCommand, hs]
  · intro err hs
    simp [runCommand, hs]

/-- C4 in the sample world, where `bash` starts: `**command: ls -l` succeeds. -/
theorem C4_detached_actions_witness :
    (LaunchToken sampleWorld () true () ("**command:".toList ++ " ls -l".toList)).result
      = .ok () :=
  (C4_detached_actions sampleWorld () true () " ls -l".toList).2.2.1 (by decide)

/-- C4 as stated fails: where `bash` cannot be started, `**command:ls` run by
hand returns the error of `Start`. -/
theorem C4_start_failure_is_returned :
    (LaunchToken noShellWorld () true () "**command:ls".toList : Outcome Unit Nat Unit) =
      ⟨.error (.external "executable file not found in $PATH".toList), [.Start "ls".toList]⟩ := by
  decide

/-- C5: a text `**rest` without a colon is rejected as an invalid command, and
a text `**c:a` whose trimmed name `c` is none of the eight command names, in
their exact spelling, is rejected as an unknown command; in both cases nothing
is called, so the text is never resolved as a content reference. -/
theorem C5_malformed_command (W : World Cfg MCfg Sys) (cfg : Cfg) (manual : Bool) (kbd : Kbd) :
    (∀ rest : Str, ':' ∉ rest →
      LaunchToken W cfg manual kbd ("**".toList ++ rest) =
        (⟨.error (.invalidCommand rest), []⟩ : Outcome MCfg Sys Kbd)) ∧
    (∀ c a : Str, ':' ∉ c → strings.TrimSpace c ∉ commandNames →
      LaunchToken W cfg manual kbd ("**".toList ++ (c ++ ':' :: a)) =
        (⟨.error (.unknownCommand (strings.TrimSpace c)), []⟩ : Outcome MCfg Sys Kbd)) := by
  refine ⟨fun rest h => LaunchToken_no_colon W cfg manual kbd rest h, fun c a hc hn => ?_⟩
  rw [LaunchToken_command W cfg manual kbd c a hc]
  exact runCommand_unknown W cfg manual kbd _ _ hn

/-- C5 on `**system` (no colon) and on `**System:menu` (a name in the wrong
case). -/
theorem C5_malformed_command_witness :
    LaunchToken sampleWorld () true () ("**".toList ++ "system".toList) =
      (⟨.error (.invalidCommand "system".toList), []⟩ : Outcome Unit Nat Unit) ∧
    LaunchToken sampleWorld () true () ("**".toList ++ ("System".toList ++ ':' :: "menu".toList)) =
      (⟨.error (.unknownCommand (strings.TrimSpace "System".toList)), []⟩ :
        Outcome Unit Nat Unit) :=
  ⟨(C5_malformed_command sampleWorld () true ()).1 "system".toList (by decide),
    (C5_malformed_command sampleWorld () true ()).2 "System".toList "menu".toList
      (by decide) (by decide)⟩

end LauncherErrors

/-! ## The launcher: white space around the name and the argument -/

/-- White space in front of a string is trimmed away. -/
theorem strings.TrimSpace_left (w s : Str) (hw : ∀ x ∈ w, unicode.IsSpace x = true) :
    strings.TrimSpace (w ++ s) = strings.TrimSpace s := by
  unfold strings.TrimSpace
  rw [List.dropWhile_append_of_pos hw]

theorem strings.rdropWhile_right (p : Char → Bool) (s w : Str) (hw : ∀ x ∈ w, p x = true) :
    (s ++ w).rdropWhile p = s.rdropWhile p := by
  unfold List.rdropWhile
  rw [List.reverse_append, List.dropWhile_append_of_pos]
  intro x hx
  exact hw x (List.mem_reverse.1 hx)

/-- White space behind a string is trimmed away. -/
theorem strings.TrimSpace_right (s w : Str) (hw : ∀ x ∈ w, unicode.IsSpace x = true) :
    strings.TrimSpace (s ++ w) = strings.TrimSpace s := by
  unfold strings.TrimSpace
  induction s with
  | nil =>
    have h : w.dropWhile unicode.IsSpace = [] := List.dropWhile_eq_nil_iff.2 hw
    simp [h]
  | cons x s ih =>
    by_cases hx : unicode.IsSpace x = true
    · simpa [List.dropWhile_cons, hx] using ih
    · have h1 : (x :: s ++ w).dropWhile unicode.IsSpace = (x :: s) ++ w := by
        simp [List.dropWhile_cons, hx]
      have h2 : (x :: s).dropWhile unicode.IsSpace = x :: s := by
        simp [List.dropWhile_cons, hx]
      rw [h1, h2]
      exact strings.rdropWhile_right _ _ _ hw

/-- Trimming leaves a part of the string. -/
theorem strings.TrimSpace_sublist (s : Str) : (strings.TrimSpace s).Sublist s :=
  ((List.rdropWhile_prefix _ _).sublist).trans (List.dropWhile_sublist _)

/-- A trimmed string neither starts nor ends with white space, so trimming it
again changes nothing. -/
theorem strings.TrimSpace_idem (s : Str) :
    strings.TrimSpace (strings.TrimSpace s) = strings.TrimSpace s := by
  have key : ∀ l : Str, (l.dropWhile unicode.IsSpace).dropWhile unicode.IsSpace
      = l.dropWhile unicode.IsSpace := by
    intro l
    induction l with
    | nil => rfl
    | cons x l ih =>
      by_cases hx : unicode.IsSpace x = true
      · simpa [List.dropWhile_cons, hx] using ih
      · simp [List.dropWhile_cons, hx]
  have hr : ∀ l : Str, (l.rdropWhile unicode.IsSpace).rdropWhile unicode.IsSpace
      = l.rdropWhile unicode.IsSpace := by
    intro l
    unfold List.rdropWhile
    rw [List.reverse_reverse, key]
  have hhead : ∀ (l : Str) (x : Char) (r : Str),
      l.dropWhile unicode.IsSpace = x :: r → ¬ unicode.IsSpace x = true := by
    intro l
    induction l with
    | nil => intro x r h; simp at h
    | cons y l ih =>
      intro x r h
      by_cases hy : unicode.IsSpace y = true
      · rw [List.dropWhile_cons, if_pos hy] at h
        exact ih x r h
      · rw [List.dropWhile_cons, if_neg hy] at h
        injection h with h1 _
        rw [← h1]
        exact hy
  have hfront : ((s.dropWhile unicode.IsSpace).rdropWhile unicode.IsSpace).dropWhile
      unicode.IsSpace = (s.dropWhile unicode.IsSpace).rdropWhile unicode.IsSpace := by
    cases hl : s.dropWhile unicode.IsSpace with
    | nil => simp
    | cons x r =>
      have hx := hhead s x r hl
      obtain ⟨t, ht⟩ := List.rdropWhile_prefix unicode.IsSpace (x :: r)
      cases hrd : (x :: r).rdropWhile unicode.IsSpace with
      | nil => rfl
      | cons y r2 =>
        rw [hrd] at ht
        injection ht with h1 _
        rw [List.dropWhile_cons, if_neg (by rw [h1]; exact hx)]
  unfold strings.TrimSpace
  rw [hfront, hr]

section LauncherSpace

variable {Cfg MCfg Sys Kbd : Type}

theorem unicode.colon_not_mem_space (w : Str) (hw : ∀ x ∈ w, unicode.IsSpace x = true) :
    ':' ∉ w := fun h => absurd (hw ':' h) (by decide)

/-- C6: white space around the command name and around the argument does not
count, and only the first colon separates: for `c` without a colon and white
space `w1` to `w4`, the text `**` `w1 c w2` `:` `w3 a w4` gives the same result
and the same calls as `**` `trim c` `:` `trim a`, namely those of the command
`trim c` on the argument `trim a`. -/
theorem C6_trimmed_pair_decides (W : World Cfg MCfg Sys) (cfg : Cfg) (manual : Bool) (kbd : Kbd)
    (c a w1 w2 w3 w4 : Str) (hc : ':' ∉ c)
    (h1 : ∀ x ∈ w1, unicode.IsSpace x = true) (h2 : ∀ x ∈ w2, unicode.IsSpace x = true)
    (h3 : ∀ x ∈ w3, unicode.IsSpace x = true) (h4 : ∀ x ∈ w4, unicode.IsSpace x = true) :
    LaunchToken W cfg manual kbd ("**".toList ++ w1 ++ c ++ w2 ++ ":".toList ++ w3 ++ a ++ w4) =
      LaunchToken W cfg manual kbd
        ("**".toList ++ strings.TrimSpace c ++ ":".toList ++ strings.TrimSpace a) ∧
    LaunchToken W cfg manual kbd
        ("**".toList ++ strings.TrimSpace c ++ ":".toList ++ strings.TrimSpace a) =
      runCommand W cfg manual kbd (strings.TrimSpace c) (strings.TrimSpace a) := by
  have hl : "**".toList ++ w1 ++ c ++ w2 ++ ":".toList ++ w3 ++ a ++ w4 =
      "**".toList ++ ((w1 ++ (c ++ w2)) ++ ':' :: (w3 ++ (a ++ w4))) := by
    simp
  have hr : "**".toList ++ strings.TrimSpace c ++ ":".toList ++ strings.TrimSpace a =
      "**".toList ++ (strings.TrimSpace c ++ ':' :: strings.TrimSpace a) := by
    simp
  have hcol : ':' ∉ w1 ++ (c ++ w2) := by
    intro h
    rcases List.mem_append.1 h with h | h
    · exact unicode.colon_not_mem_space w1 h1 h
    · rcases List.mem_append.1 h with h | h
      · exact hc h
      · exact unicode.colon_not_mem_space w2 h2 h
  have hcol2 : ':' ∉ strings.TrimSpace c := fun h => hc ((strings.TrimSpace_sublist c).subset h)
  rw [hl, hr, LaunchToken_command W cfg manual kbd _ _ hcol,
    LaunchToken_command W cfg manual kbd _ _ hcol2,
    strings.TrimSpace_left w1 _ h1, strings.TrimSpace_right c w2 h2,
    strings.TrimSpace_left w3 _ h3, strings.TrimSpace_right a w4 h4,
    strings.TrimSpace_idem, strings.TrimSpace_idem]
  exact ⟨rfl, rfl⟩

/-- C6 on a `get` command with white space on all four sides and a second
colon inside its argument. -/
theorem C6_trimmed_pair_decides_witness :
    LaunchToken sampleWorld () true ()
        ("**".toList ++ " ".toList ++ "get".toList ++ "\t".toList ++ ":".toList ++ " ".toList ++
          "http://host:80/".toList ++ " \n".toList) =
      LaunchToken sampleWorld () true ()
        ("**".toList ++ strings.TrimSpace "get".toList ++ ":".toList ++
          strings.TrimSpace "http://host:80/".toList) ∧
    LaunchToken sampleWorld () true ()
        ("**".toList ++ strings.TrimSpace "get".toList ++ ":".toList ++
          strings.TrimSpace "http://host:80/".toList) =
      (runCommand sampleWorld () true () (strings.TrimSpace "get".toList)
        (strings.TrimSpace "http://host:80/".toList) : Outcome Unit Nat Unit) :=
  C6_trimmed_pair_decides sampleWorld () true () "get".toList "http://host:80/".toList
    " ".toList "\t".toList " ".toList " \n".toList (by decide) (by decide) (by decide)
    (by decide) (by decide)

end LauncherSpace

/-! ## The launcher: the commands `system` and `random` -/

theorem unicode.foldRune_eq_iff (r x : Char) (hx : x = 'm' ∨ x = 'e' ∨ x = 'n' ∨ x = 'u') :
    unicode.foldRune r = x ↔ r.toLower = x := by
  unfold unicode.foldRune
  split_ifs with h1 h2
  · subst h1
    rcases hx with rfl | rfl | rfl | rfl <;> decide
  · subst h2
    rcases hx with rfl | rfl | rfl | rfl <;> decide
  · rfl

/-- Against the literal `menu`, `strings.EqualFold` holds exactly of the
strings whose ASCII lower case is `menu`. -/
theorem strings.EqualFold_menu (args : Str) :
    strings.EqualFold args "menu".toList = true ↔ args.map Char.toLower = "menu".toList := by
  have hm : "menu".toList.map unicode.foldRune = ['m', 'e', 'n', 'u'] := by decide
  have hl : "menu".toList = ['m', 'e', 'n', 'u'] := rfl
  unfold strings.EqualFold
  rw [hm, hl, decide_eq_true_iff]
  rcases args with _ | ⟨a, _ | ⟨b, _ | ⟨c, _ | ⟨d, _ | ⟨e, t⟩⟩⟩⟩⟩
  · simp
  · simp
  · simp
  · simp
  · simp only [List.map_cons, List.map_nil, List.cons.injEq, and_true]
    rw [unicode.foldRune_eq_iff a 'm' (by simp), unicode.foldRune_eq_iff b 'e' (by simp),
      unicode.foldRune_eq_iff c 'n' (by simp), unicode.foldRune_eq_iff d 'u' (by simp)]
  · simp

section LauncherSystems

variable {Cfg MCfg Sys Kbd : Type}

/-- A text `**name:a` for one of the command names runs that command on the
trimmed argument. -/
theorem LaunchToken_named (W : World Cfg MCfg Sys) (cfg : Cfg) (manual : Bool) (kbd : Kbd)
    (name a : Str) (hn : name ∈ commandNames) :
    LaunchToken W cfg manual kbd ("**".toList ++ name ++ ":".toList ++ a) =
      runCommand W cfg manual kbd name (strings.TrimSpace a) := by
  have hl : "**".toList ++ name ++ ":".toList ++ a = "**".toList ++ (name ++ ':' :: a) := by
    simp
  have hcases : ':' ∉ name ∧ strings.TrimSpace name = name := by
    simp only [commandNames, List.mem_cons, List.mem_singleton, List.not_mem_nil, or_false] at hn
    rcases hn with rfl | rfl | rfl | rfl | rfl | rfl | rfl | rfl <;> decide
  rw [hl, LaunchToken_command W cfg manual kbd name a hcases.1, hcases.2]

/-- C7: on `**system:a`, when `trim a` is `menu` in any mix of cases
`LaunchToken` calls `LaunchMenu` alone and returns its result: success when
`LaunchMenu` gave nil, and the very error `LaunchMenu` gave otherwise. When
`trim a` is not `menu`, it looks `trim a` up with `LookupSystem`, returns the
error of the lookup without a launch when there is one, and else calls
`LaunchCore` on the system found and returns its result, success or the very
error of `LaunchCore`. -/
theorem C7_system (W : World Cfg MCfg Sys) (cfg : Cfg) (manual : Bool) (kbd : Kbd) (a : Str) :
    ((strings.TrimSpace a).map Char.toLower = "menu".toList →
      (W.LaunchMenu = none →
        LaunchToken W cfg manual kbd ("**system:".toList ++ a) =
          (⟨.ok (), [.LaunchMenu]⟩ : Outcome MCfg Sys Kbd)) ∧
      (∀ err, W.LaunchMenu = some err →
        LaunchToken W cfg manual kbd ("**system:".toList ++ a) =
          (⟨.error (.external err), [.LaunchMenu]⟩ : Outcome MCfg Sys Kbd))) ∧
    ((strings.TrimSpace a).map Char.toLower ≠ "menu".toList →
      ∀ err, W.LookupSystem (strings.TrimSpace a) = .error err →
        LaunchToken W cfg manual kbd ("**system:".toList ++ a) =
          (⟨.error (.external err), [.LookupSystem (strings.TrimSpace a)]⟩ :
            Outcome MCfg Sys Kbd)) ∧
    ((strings.TrimSpace a).map Char.toLower ≠ "menu".toList →
      ∀ system, W.LookupSystem (strings.TrimSpace a) = .ok system →
        (W.LaunchCore (W.UserConfigToMrext cfg) system = none →
          LaunchToken W cfg manual kbd ("**system:".toList ++ a) =
            (⟨.ok (), [.LookupSystem (strings.TrimSpace a),
              .LaunchCore (W.UserConfigToMrext cfg) system]⟩ : Outcome MCfg Sys Kbd)) ∧
        (∀ err, W.LaunchCore (W.UserConfigToMrext cfg) system = some err →
          LaunchToken W cfg manual kbd ("**system:".toList ++ a) =
            (⟨.error (.external err), [.LookupSystem (strings.TrimSpace a),
              .LaunchCore (W.UserConfigToMrext cfg) system]⟩ : Outcome MCfg Sys Kbd))) := by
  have h := LaunchToken_named W cfg manual kbd "system".toList a (by decide)
  have hl : "**system:".toList ++ a = "**".toList ++ "system".toList ++ ":".toList ++ a := rfl
  rw [hl, h]
  refine ⟨fun hm => ?_, fun hm err he => ?_, fun hm system he => ?_⟩
  · have hfold := (strings.EqualFold_menu _).2 hm
    have hrun : runCommand W cfg manual kbd "system".toList (strings.TrimSpace a) =
        (⟨returned W.LaunchMenu, [.LaunchMenu]⟩ : Outcome MCfg Sys Kbd) := by
      simp only [runCommand, hfold, if_true]
    rw [hrun]
    constructor
    · intro hnil
      rw [hnil, returned_none]
    · intro err herr
      rw [herr, returned_some]
  · have : strings.EqualFold (strings.TrimSpace a) "menu".toList = false := by
      rw [Bool.eq_false_iff]
      exact fun h => hm ((strings.EqualFold_menu _).1 h)
    simp only [runCommand, this, he, if_true]
    simp
  · have hfold : strings.EqualFold (strings.TrimSpace a) "menu".toList = false := by
      rw [Bool.eq_false_iff]
      exact fun h => hm ((strings.EqualFold_menu _).1 h)
    have hrun : runCommand W cfg manual kbd "system".toList (strings.TrimSpace a) =
        (⟨returned (W.LaunchCore (W.UserConfigToMrext cfg) system),
          [.LookupSystem (strings.TrimSpace a),
            .LaunchCore (W.UserConfigToMrext cfg) system]⟩ : Outcome MCfg Sys Kbd) := by
      simp only [runCommand, hfold, he, if_true]
      simp
    rw [hrun]
    constructor
    · intro hnil
      rw [hnil, returned_none]
    · intro err herr
      rw [herr, returned_some]

/-- C7 on ` MeNu `, on the known system `nes` and on an unknown system, in the
sample world, where the launches succeed, and in the world where they fail and
their errors come back. -/
theorem C7_system_witness :
    LaunchToken sampleWorld () false () ("**system:".toList ++ " MeNu ".toList) =
      (⟨.ok (), [.LaunchMenu]⟩ : Outcome Unit Nat Unit) ∧
    LaunchToken failingLaunchWorld () false () ("**system:".toList ++ " MeNu ".toList) =
      (⟨.error (.external "cannot open menu".toList), [.LaunchMenu]⟩ : Outcome Unit Nat Unit) ∧
    LaunchToken sampleWorld () false () ("**system:".toList ++ "nes".toList) =
      (⟨.ok (), [.LookupSystem (strings.TrimSpace "nes".toList),
        .LaunchCore (sampleWorld.UserConfigToMrext ()) 1]⟩ : Outcome Unit Nat Unit) ∧
    LaunchToken failingLaunchWorld () false () ("**system:".toList ++ "nes".toList) =
      (⟨.error (.external "cannot launch core".toList),
        [.LookupSystem (strings.TrimSpace "nes".toList),
          .LaunchCore (failingLaunchWorld.UserConfigToMrext ()) 1]⟩ : Outcome Unit Nat Unit) ∧
    LaunchToken sampleWorld () false () ("**system:".toList ++ "zx81".toList) =
      (⟨.error (.external "unknown system: zx81".toList),
        [.LookupSystem (strings.TrimSpace "zx81".toList)]⟩ : Outcome Unit Nat Unit) :=
  ⟨((C7_system sampleWorld () false () " MeNu ".toList).1 (by decide)).1 (by decide),
    ((C7_system failingLaunchWorld () false () " MeNu ".toList).1 (by decide)).2
      "cannot open menu".toList (by decide),
    ((C7_system sampleWorld () false () "nes".toList).2.2 (by decide) 1 (by decide)).1
      (by decide),
    ((C7_system failingLaunchWorld () false () "nes".toList).2.2 (by decide) 1 (by decide)).2
      "cannot launch core".toList (by decide),
    (C7_system sampleWorld () false () "zx81".toList).2.1 (by decide)
      "unknown system: zx81".toList (by decide)⟩

/-- C8 as stated fails: `**random:ALL` does not launch a random game over all
systems; the argument is handed to `LookupSystem`, which does not know it. -/
theorem C8_upper_case_all_is_looked_up :
    (LaunchToken sampleWorld () true () "**random:ALL".toList : Outcome Unit Nat Unit) =
      ⟨.error (.external "unknown system: ALL".toList), [.LookupSystem "ALL".toList]⟩ := by
  decide

/-- C8, as the code has it: on `**random:a` the word `all` is matched in its
exact spelling. When `trim a` is `all`, `LaunchRandomGame` is called with the
list of all systems and `LookupSystem` is not called; when `trim a` is
non-empty and differs from `all`, be it only in case, the first call is
`LookupSystem` on `trim a`. -/
theorem C8_random_all_exact (W : World Cfg MCfg Sys) (cfg : Cfg) (manual : Bool) (kbd : Kbd)
    (a : Str) :
    (strings.TrimSpace a = "all".toList →
      LaunchToken W cfg manual kbd ("**random:".toList ++ a) =
        (⟨returned (W.LaunchRandomGame (W.UserConfigToMrext cfg) W.AllSystems),
          [.AllSystems, .LaunchRandomGame (W.UserConfigToMrext cfg) W.AllSystems]⟩ :
            Outcome MCfg Sys Kbd)) ∧
    (strings.TrimSpace a ≠ "all".toList → strings.TrimSpace a ≠ [] →
      (LaunchToken W cfg manual kbd ("**random:".toList ++ a)).calls.head? =
        some (.LookupSystem (strings.TrimSpace a))) := by
  have h := LaunchToken_named W cfg manual kbd "random".toList a (by decide)
  have hl : "**random:".toList ++ a = "**".toList ++ "random".toList ++ ":".toList ++ a := rfl
  rw [hl, h]
  refine ⟨fun ha => ?_, fun ha he => ?_⟩
  · rw [ha]
    simp [runCommand]
  · have h1 : ¬ "random".toList = "system".toList := by decide
    have h2 : ¬ "random".toList = "command".toList := by decide
    simp only [runCommand, h1, h2, ha, he, if_false, if_true]
    cases W.LookupSystem (strings.TrimSpace a) <;> rfl

/-- C8 (amended) in the sample world on ` all ` and on `All`. -/
theorem C8_random_all_exact_witness :
    LaunchToken sampleWorld () true () ("**random:".toList ++ " all ".toList) =
      (⟨returned (sampleWorld.LaunchRandomGame (sampleWorld.UserConfigToMrext ())
          sampleWorld.AllSystems),
        [.AllSystems, .LaunchRandomGame (sampleWorld.UserConfigToMrext ())
          sampleWorld.AllSystems]⟩ : Outcome Unit Nat Unit) ∧
    (LaunchToken sampleWorld () true () ("**random:".toList ++ "All".toList) :
        Outcome Unit Nat Unit).calls.head? =
      some (.LookupSystem (strings.TrimSpace "All".toList)) :=
  ⟨(C8_random_all_exact sampleWorld () true () " all ".toList).1 (by decide),
    (C8_random_all_exact sampleWorld () true () "All".toList).2 (by decide) (by decide)⟩

/-- C9: on `**random:a`, an empty `trim a` gives the error `no system
specified` and no call; a non-empty `trim a` other than `all` is looked up with
`LookupSystem`: the error of the lookup is returned without a launch, and a
system `S` found makes the call `LaunchRandomGame` with the list `[S]`, whose
result is returned. -/
theorem C9_random_one_system (W : World Cfg MCfg Sys) (cfg : Cfg) (manual : Bool) (kbd : Kbd)
    (a : Str) :
    (strings.TrimSpace a = [] →
      LaunchToken W cfg manual kbd ("**random:".toList ++ a) =
        (⟨.error .noSystemSpecified, []⟩ : Outcome MCfg Sys Kbd)) ∧
    (strings.TrimSpace a ≠ [] → strings.TrimSpace a ≠ "all".toList →
      ∀ err, W.LookupSystem (strings.TrimSpace a) = .error err →
        LaunchToken W cfg manual kbd ("**random:".toList ++ a) =
          (⟨.error (.external err), [.LookupSystem (strings.TrimSpace a)]⟩ :
            Outcome MCfg Sys Kbd)) ∧
    (strings.TrimSpace a ≠ [] → strings.TrimSpace a ≠ "all".toList →
      ∀ S, W.LookupSystem (strings.TrimSpace a) = .ok S →
        LaunchToken W cfg manual kbd ("**random:".toList ++ a) =
          (⟨returned (W.LaunchRandomGame (W.UserConfigToMrext cfg) [S]),
            [.LookupSystem (strings.TrimSpace a),
              .LaunchRandomGame (W.UserConfigToMrext cfg) [S]]⟩ : Outcome MCfg Sys Kbd)) := by
  have h := LaunchToken_named W cfg manual kbd "random".toList a (by decide)
  have hl : "**random:".toList ++ a = "**".toList ++ "random".toList ++ ":".toList ++ a := rfl
  have h1 : ¬ "random".toList = "system".toList := by decide
  have h2 : ¬ "random".toList = "command".toList := by decide
  rw [hl, h]
  refine ⟨fun he => ?_, fun he ha err hlk => ?_, fun he ha S hlk => ?_⟩
  · simp only [runCommand, h1, h2, he, if_false, if_true]
  · simp only [runCommand, h1, h2, he, ha, hlk, if_false, if_true]
  · simp only [runCommand, h1, h2, he, ha, hlk, if_false, if_true]

/-- C9 in the sample world on a blank argument, on an unknown system and on
`nes`. -/
theorem C9_random_one_system_witness :
    LaunchToken sampleWorld () true () ("**random:".toList ++ "  ".toList) =
      (⟨.error .noSystemSpecified, []⟩ : Outcome Unit Nat Unit) ∧
    LaunchToken sampleWorld () true () ("**random:".toList ++ "zx81".toList) =
      (⟨.error (.external "unknown system: zx81".toList),
        [.LookupSystem (strings.TrimSpace "zx81".toList)]⟩ : Outcome Unit Nat Unit) ∧
    LaunchToken sampleWorld () true () ("**random:".toList ++ " nes".toList) =
      (⟨returned (sampleWorld.LaunchRandomGame (sampleWorld.UserConfigToMrext ()) [1]),
        [.LookupSystem (strings.TrimSpace " nes".toList),
          .LaunchRandomGame (sampleWorld.UserConfigToMrext ()) [1]]⟩ : Outcome Unit Nat Unit) :=
  ⟨(C9_random_one_system sampleWorld () true () "  ".toList).1 (by decide),
    (C9_random_one_system sampleWorld () true () "zx81".toList).2.1 (by decide) (by decide)
      "unknown system: zx81".toList (by decide),
    (C9_random_one_system sampleWorld () true () " nes".toList).2.2 (by decide) (by decide)
      1 (by decide)⟩

end LauncherSystems

/-! ## `strconv.Atoi` reads the decimal integers that fit an `int` -/

theorem strconv.foldl_digits_ge (cs : Str) (acc : Nat) :
    acc ≤ cs.foldl (fun n c => n * 10 + (c.toNat - '0'.toNat)) acc := by
  induction cs generalizing acc with
  | nil => exact Nat.le_refl _
  | cons c cs ih =>
    have h := ih (acc * 10 + (c.toNat - '0'.toNat))
    simp only [List.foldl_cons]
    omega

/-- The digit loop gives a value only on digits, and then their value on top
of what was read before, not above `maxVal`. -/
theorem strconv.parseDigits_sound (maxVal : Nat) (cs : Str) (acc v : Nat)
    (h : strconv.parseDigits maxVal cs acc = .ok v) (hacc : acc ≤ maxVal) :
    cs.all Char.isDigit = true ∧
      v = cs.foldl (fun n c => n * 10 + (c.toNat - '0'.toNat)) acc ∧ v ≤ maxVal := by
  induction cs generalizing acc with
  | nil =>
    simp only [strconv.parseDigits, Except.ok.injEq] at h
    exact ⟨rfl, h.symm, by omega⟩
  | cons c cs ih =>
    unfold strconv.parseDigits at h
    split_ifs at h with hd h1
    dsimp only at h
    split_ifs at h with h2
    obtain ⟨ha, hv, hle⟩ := ih _ h (by omega)
    exact ⟨by simp [hd, ha], by simpa using hv, hle⟩

/-- The digit loop reads every string of digits whose value stays within
`maxVal`, itself within 64 bits. -/
theorem strconv.parseDigits_complete (maxVal : Nat) (cs : Str) (acc : Nat)
    (hmaxVal : maxVal ≤ 2 ^ 64 - 1)
    (hall : cs.all Char.isDigit = true)
    (hle : cs.foldl (fun n c => n * 10 + (c.toNat - '0'.toNat)) acc ≤ maxVal) :
    strconv.parseDigits maxVal cs acc =
      .ok (cs.foldl (fun n c => n * 10 + (c.toNat - '0'.toNat)) acc) := by
  induction cs generalizing acc with
  | nil => rfl
  | cons c cs ih =>
    have hmono := strconv.foldl_digits_ge cs (acc * 10 + (c.toNat - '0'.toNat))
    have hcut : (2 ^ 64 - 1) / 10 + 1 = 1844674407370955162 := by norm_num
    have hmax : 2 ^ 64 - 1 = 18446744073709551615 := by norm_num
    simp only [List.all_cons, Bool.and_eq_true] at hall
    simp only [List.foldl_cons] at hle ⊢
    unfold strconv.parseDigits
    rw [if_pos hall.1, if_neg (by omega)]
    dsimp only
    rw [if_neg (by omega)]
    exact ih _ hall.2 hle

/-- With an `int` of at most 64 bits, `strconv.ParseUint` reads exactly the
non-empty strings of digits whose value is below `2^intSize`. -/
theorem strconv.ParseUint_ok (intSize : Nat) (hb : intSize ≤ 64) (ds : Str) (n : Nat) :
    strconv.ParseUint intSize ds = .ok n ↔ decimalNat ds = some n ∧ n ≤ 2 ^ intSize - 1 := by
  have hpow : 2 ^ intSize ≤ 2 ^ 64 := Nat.pow_le_pow_right (by norm_num) hb
  constructor
  · intro h
    unfold strconv.ParseUint at h
    split_ifs at h with he
    obtain ⟨hall, hv, hle⟩ := strconv.parseDigits_sound _ ds 0 n h (Nat.zero_le _)
    refine ⟨?_, hle⟩
    unfold decimalNat decimalValue
    rw [if_pos ⟨he, hall⟩, hv]
  · rintro ⟨hd, hle⟩
    unfold decimalNat at hd
    split_ifs at hd with hc
    injection hd with hv
    unfold decimalValue at hv
    have hp := strconv.parseDigits_complete (2 ^ intSize - 1) ds 0 (by omega) hc.2
      (by rw [hv]; exact hle)
    unfold strconv.ParseUint
    rw [if_neg hc.1, hp, hv]

/-- On an `int` of 32 bits the range of `int` is tested inside the digit loop:
a value past 32 bits is a range error before a later rune that is no digit is
seen. -/
theorem strconv.Atoi_range_before_syntax :
    strconv.Atoi 32 "4294967296x".toList = .error .ErrRange ∧
    strconv.Atoi 32 "429496729x".toList = .error .ErrSyntax ∧
    strconv.Atoi 64 "4294967296x".toList = .error .ErrSyntax := by
  decide

/-- The range test lets through the values of `int`, with their sign. -/
theorem strconv.signedInRange_ok (intSize : Nat) (hb : intSize = 32 ∨ intSize = 64)
    (neg : Bool) (un : Nat) (n : Int) :
    strconv.signedInRange intSize neg un = .ok n ↔
      n = (if neg = true then -(un : Int) else (un : Int)) ∧
        -((2 ^ (intSize - 1) : Nat) : Int) ≤ n ∧ n < ((2 ^ (intSize - 1) : Nat) : Int) := by
  unfold strconv.signedInRange
  rcases hb with rfl | rfl <;> cases neg <;>
    simp only [Bool.not_false, Bool.not_true, Bool.true_and, Bool.false_and, decide_eq_true_eq,
      if_false, if_true, Bool.false_eq_true, Nat.reduceSub, Nat.reducePow] <;>
    split_ifs <;>
    constructor <;> intro h <;>
    first
      | (cases h; done)
      | (injection h with h; subst h; refine ⟨rfl, ?_, ?_⟩ <;> omega)
      | (exfalso; omega)
      | (rw [h.1])

/-- With an `int` of 32 or 64 bits, `strconv.Atoi` succeeds with the value `n`
exactly on the decimal integers of value `n` within the range of `int`. -/
theorem strconv.Atoi_ok (intSize : Nat) (hb : intSize = 32 ∨ intSize = 64) (s : Str) (n : Int) :
    strconv.Atoi intSize s = .ok n ↔
      decimalInt s = some n ∧
        -((2 ^ (intSize - 1) : Nat) : Int) ≤ n ∧ n < ((2 ^ (intSize - 1) : Nat) : Int) := by
  have hle : intSize ≤ 64 := by omega
  have hpow : 2 ^ intSize = 2 * 2 ^ (intSize - 1) := by
    rcases hb with rfl | rfl <;> norm_num
  have key : ∀ (neg : Bool) (ds : Str),
      (match strconv.ParseUint intSize ds with
        | .error e => (.error e : Except strconv.Err Int)
        | .ok un => strconv.signedInRange intSize neg un) = .ok n ↔
      (decimalNat ds).map (fun m => if neg = true then -(m : Int) else (m : Int)) = some n ∧
        -((2 ^ (intSize - 1) : Nat) : Int) ≤ n ∧ n < ((2 ^ (intSize - 1) : Nat) : Int) := by
    intro neg ds
    constructor
    · intro h
      split at h
      · cases h
      · rename_i un hu
        obtain ⟨hd, _⟩ := (strconv.ParseUint_ok intSize hle ds un).1 hu
        obtain ⟨hn, hr⟩ := (strconv.signedInRange_ok intSize hb neg un n).1 h
        exact ⟨by rw [hd, hn]; rfl, hr⟩
    · rintro ⟨hd, hr⟩
      cases hdn : decimalNat ds with
      | none => rw [hdn] at hd; cases hd
      | some m =>
        replace hd : (if neg = true then -(m : Int) else (m : Int)) = n := by
          rw [hdn] at hd
          exact Option.some.inj hd
        have hm : m ≤ 2 ^ intSize - 1 := by
          cases neg
          · rw [if_neg (by decide)] at hd
            omega
          · rw [if_pos rfl] at hd
            omega
        rw [(strconv.ParseUint_ok intSize hle ds m).2 ⟨hdn, hm⟩]
        exact (strconv.signedInRange_ok intSize hb neg m n).2 ⟨hd.symm, hr⟩
  cases s with
  | nil =>
    simp only [strconv.Atoi, strconv.ParseInt, decimalInt]
    constructor
    · intro h; cases h
    · intro h; cases h.1
  | cons c cs =>
    by_cases hplus : c = '+'
    · subst hplus
      have hneg : decide (('+' : Char) = '-') = false := by decide
      simp only [strconv.Atoi, strconv.ParseInt, decimalInt, if_true, true_or, hneg]
      simpa using key false cs
    · by_cases hminus : c = '-'
      · subst hminus
        have hne : ¬ (('-' : Char) = '+') := by decide
        simp only [strconv.Atoi, strconv.ParseInt, decimalInt, hne, if_false, if_true, or_true,
          decide_True]
        simpa using key true cs
      · have hor : ¬ (c = '+' ∨ c = '-') := by
          intro h
          rcases h with h | h
          · exact hplus h
          · exact hminus h
        simp only [strconv.Atoi, strconv.ParseInt, decimalInt, hplus, hminus, hor, if_false,
          decide_False]
        simpa using key false (c :: cs)

/-! ## The launcher: the command `ini` -/

section LauncherIni

variable {Cfg MCfg Sys Kbd : Type}

/-- The two outcomes of `**ini:a` once the profiles are listed: the profile
`id` is selected, `id` being `trim a` read as a decimal integer from 1 to the
number of profiles; or there is no such integer, an error is returned and
nothing but the listing was called. -/
theorem LaunchToken_ini (W : World Cfg MCfg Sys) (cfg : Cfg) (manual : Bool) (kbd : Kbd)
    (a : Str) (inis : List Str) (hb : W.intSize = 32 ∨ W.intSize = 64)
    (hinis : W.GetAllMisterIni = .ok inis) (hlen : inis.length < 2 ^ (W.intSize - 1)) :
    (∃ id : Int, (0 < inis.length ∧ decimalInt (strings.TrimSpace a) = some id ∧
        1 ≤ id ∧ id ≤ inis.length) ∧
      LaunchToken W cfg manual kbd ("**ini:".toList ++ a) =
        (⟨returned (W.SetActiveIni id), [.GetAllMisterIni, .SetActiveIni id]⟩ :
          Outcome MCfg Sys Kbd)) ∨
    ((¬ ∃ n : Int, 0 < inis.length ∧ decimalInt (strings.TrimSpace a) = some n ∧
        1 ≤ n ∧ n ≤ inis.length) ∧
      ∃ e, LaunchToken W cfg manual kbd ("**ini:".toList ++ a) =
        (⟨.error e, [.GetAllMisterIni]⟩ : Outcome MCfg Sys Kbd)) := by
  have h := LaunchToken_named W cfg manual kbd "ini".toList a (by decide)
  have hl : "**ini:".toList ++ a = "**".toList ++ "ini".toList ++ ":".toList ++ a := rfl
  have h1 : ¬ "ini".toList = "system".toList := by decide
  have h2 : ¬ "ini".toList = "command".toList := by decide
  have h3 : ¬ "ini".toList = "random".toList := by decide
  have hlenZ : (inis.length : Int) < ((2 ^ (W.intSize - 1) : Nat) : Int) :=
    Int.ofNat_lt.2 hlen
  have hposZ : (0 : Int) ≤ ((2 ^ (W.intSize - 1) : Nat) : Int) := Int.ofNat_nonneg _
  rw [hl, h]
  simp only [runCommand, h1, h2, h3, if_false, if_true, hinis]
  by_cases h0 : inis.length = 0
  · right
    rw [if_pos h0]
    exact ⟨fun ⟨n, hn, _⟩ => by omega, _, rfl⟩
  · rw [if_neg h0]
    cases hat : strconv.Atoi W.intSize (strings.TrimSpace a) with
    | error err =>
      right
      refine ⟨?_, _, rfl⟩
      rintro ⟨n, _, hd, hn1, hn2⟩
      have := (strconv.Atoi_ok W.intSize hb _ n).2 ⟨hd, by omega, by omega⟩
      rw [hat] at this
      cases this
    | ok id =>
      obtain ⟨hd, _, _⟩ := (strconv.Atoi_ok W.intSize hb _ id).1 hat
      by_cases hr : id < 1 ∨ id > (inis.length : Int)
      · right
        simp only [hr, if_true]
        refine ⟨?_, _, rfl⟩
        rintro ⟨n, _, hdn, hn1, hn2⟩
        rw [hd] at hdn
        injection hdn with hdn
        subst hdn
        omega
      · left
        simp only [hr, if_false]
        exact ⟨id, ⟨by omega, hd, by omega, by omega⟩, rfl⟩

/-- C10: when the profiles are listed successfully and there are `count` of
them, `**ini:a` calls `SetActiveIni(n)` exactly when `count > 0` and `trim a`
is a decimal integer `n` with `1 ≤ n ≤ count`; when there is no such `n` it
returns an error and makes no call of `SetActiveIni`. The number of profiles is
the length of a slice and so fits an `int`. -/
theorem C10_ini (W : World Cfg MCfg Sys) (cfg : Cfg) (manual : Bool) (kbd : Kbd)
    (a : Str) (inis : List Str) (hb : W.intSize = 32 ∨ W.intSize = 64)
    (hinis : W.GetAllMisterIni = .ok inis) (hlen : inis.length < 2 ^ (W.intSize - 1)) :
    (∀ n : Int,
      Call.SetActiveIni n ∈ (LaunchToken W cfg manual kbd ("**ini:".toList ++ a)).calls ↔
        0 < inis.length ∧ decimalInt (strings.TrimSpace a) = some n ∧
          1 ≤ n ∧ n ≤ inis.length) ∧
    ((¬ ∃ n : Int, 0 < inis.length ∧ decimalInt (strings.TrimSpace a) = some n ∧
        1 ≤ n ∧ n ≤ inis.length) →
      (∃ e, (LaunchToken W cfg manual kbd ("**ini:".toList ++ a)).result = .error e) ∧
      ∀ m : Int,
        Call.SetActiveIni m ∉ (LaunchToken W cfg manual kbd ("**ini:".toList ++ a)).calls) := by
  rcases LaunchToken_ini W cfg manual kbd a inis hb hinis hlen with
    ⟨id, hid, heq⟩ | ⟨hno, e, heq⟩
  · rw [heq]
    refine ⟨fun n => ?_, fun hno => absurd ⟨id, hid⟩ hno⟩
    constructor
    · intro hmem
      simp only [List.mem_cons, List.mem_singleton, Call.SetActiveIni.injEq, List.not_mem_nil,
        or_false, reduceCtorEq, false_or] at hmem
      rw [hmem]
      exact hid
    · rintro ⟨_, hd, _, _⟩
      rw [hid.2.1] at hd
      injection hd with hd
      simp [hd]
  · rw [heq]
    refine ⟨fun n => ?_, fun _ => ⟨⟨e, rfl⟩, fun m => by simp⟩⟩
    constructor
    · intro hmem
      simp at hmem
    · intro hn
      exact absurd ⟨n, hn⟩ hno

/-- C10 in the sample world with its two profiles: ` 2 ` selects the second
profile, and `3` is out of range. -/
theorem C10_ini_witness :
    (Call.SetActiveIni 2 ∈
        (LaunchToken sampleWorld () true () ("**ini:".toList ++ " 2 ".toList) :
          Outcome Unit Nat Unit).calls ↔
      0 < ["MiSTer.ini".toList, "MiSTer_alt_1.ini".toList].length ∧
        decimalInt (strings.TrimSpace " 2 ".toList) = some 2 ∧ (1 : Int) ≤ 2 ∧
          (2 : Int) ≤ (["MiSTer.ini".toList, "MiSTer_alt_1.ini".toList].length : Nat)) ∧
    ((∃ e, (LaunchToken sampleWorld () true () ("**ini:".toList ++ "3".toList) :
        Outcome Unit Nat Unit).result = .error e) ∧
      ∀ m : Int, Call.SetActiveIni m ∉
        (LaunchToken sampleWorld () true () ("**ini:".toList ++ "3".toList) :
          Outcome Unit Nat Unit).calls) :=
  ⟨(C10_ini sampleWorld () true () " 2 ".toList
      ["MiSTer.ini".toList, "MiSTer_alt_1.ini".toList] (Or.inr rfl) rfl (by decide)).1 2,
    (C10_ini sampleWorld () true () "3".toList
      ["MiSTer.ini".toList, "MiSTer_alt_1.ini".toList] (Or.inr rfl) rfl (by decide)).2
      (by
        rintro ⟨n, _, hd, _, hn⟩
        have h3 : decimalInt (strings.TrimSpace "3".toList) = some 3 := by decide
        rw [h3] at hd
        injection hd with hd
        subst hd
        simp at hn)⟩

end LauncherIni

/-! ## The launcher: the commands `key`, `coinp1` and `coinp2` -/

/-- A decimal integer within the range of `int` is read by `strconv.Atoi`. -/
theorem strconv.Atoi_of_decimalInt (intSize : Nat) (hb : intSize = 32 ∨ intSize = 64) (s : Str)
    (n : Int) (hd : decimalInt s = some n)
    (hlo : -((2 ^ (intSize - 1) : Nat) : Int) ≤ n) (hhi : n < ((2 ^ (intSize - 1) : Nat) : Int)) :
    strconv.Atoi intSize s = .ok n :=
  (strconv.Atoi_ok intSize hb s n).2 ⟨hd, hlo, hhi⟩

/-- A string that is no decimal integer is refused by `strconv.Atoi`. -/
theorem strconv.Atoi_error_of_none (intSize : Nat) (hb : intSize = 32 ∨ intSize = 64) (s : Str)
    (hd : decimalInt s = none) : ∃ e, strconv.Atoi intSize s = .error e := by
  cases h : strconv.Atoi intSize s with
  | error e => exact ⟨e, rfl⟩
  | ok n =>
    have := ((strconv.Atoi_ok intSize hb s n).1 h).1
    rw [hd] at this
    cases this

/-- A decimal integer outside the range of `int` is refused by `strconv.Atoi`. -/
theorem strconv.Atoi_error_of_range (intSize : Nat) (hb : intSize = 32 ∨ intSize = 64) (s : Str)
    (n : Int) (hd : decimalInt s = some n)
    (hr : n < -((2 ^ (intSize - 1) : Nat) : Int) ∨ ((2 ^ (intSize - 1) : Nat) : Int) ≤ n) :
    ∃ e, strconv.Atoi intSize s = .error e := by
  cases h : strconv.Atoi intSize s with
  | error e => exact ⟨e, rfl⟩
  | ok m =>
    obtain ⟨hm, hlo, hhi⟩ := (strconv.Atoi_ok intSize hb s m).1 h
    rw [hd] at hm
    injection hm with hm
    subst hm
    omega

section LauncherKeys

variable {Cfg MCfg Sys Kbd : Type}

/-- The command `key` on an argument that `strconv.Atoi` reads. -/
theorem runCommand_key_ok (W : World Cfg MCfg Sys) (cfg : Cfg) (manual : Bool) (kbd : Kbd)
    (args : Str) (n : Int) (h : strconv.Atoi W.intSize args = .ok n) :
    runCommand W cfg manual kbd "key".toList args =
      (⟨.ok (), [.Press kbd n]⟩ : Outcome MCfg Sys Kbd) := by
  have h1 : ¬ "key".toList = "system".toList := by decide
  have h2 : ¬ "key".toList = "command".toList := by decide
  have h3 : ¬ "key".toList = "random".toList := by decide
  have h4 : ¬ "key".toList = "ini".toList := by decide
  have h5 : ¬ "key".toList = "get".toList := by decide
  simp only [runCommand, h1, h2, h3, h4, h5, if_false, if_true, h]

/-- The command `key` on an argument that `strconv.Atoi` refuses. -/
theorem runCommand_key_error (W : World Cfg MCfg Sys) (cfg : Cfg) (manual : Bool) (kbd : Kbd)
    (args : Str) (e : strconv.Err) (h : strconv.Atoi W.intSize args = .error e) :
    runCommand W cfg manual kbd "key".toList args =
      (⟨.error (.numError args e), []⟩ : Outcome MCfg Sys Kbd) := by
  have h1 : ¬ "key".toList = "system".toList := by decide
  have h2 : ¬ "key".toList = "command".toList := by decide
  have h3 : ¬ "key".toList = "random".toList := by decide
  have h4 : ¬ "key".toList = "ini".toList := by decide
  have h5 : ¬ "key".toList = "get".toList := by decide
  simp only [runCommand, h1, h2, h3, h4, h5, if_false, if_true, h]

/-- C11: on `**key:a`, whatever the flag `manual`, when `trim a` is a decimal
integer `n` within the range of `int` exactly one key press is made, with the
code `n`, and the result is success; when `trim a` is no integer, or one that
no `int` holds, an error is returned and no key is pressed. -/
theorem C11_key (W : World Cfg MCfg Sys) (cfg : Cfg) (manual : Bool) (kbd : Kbd) (a : Str)
    (hb : W.intSize = 32 ∨ W.intSize = 64) :
    (∀ n : Int, decimalInt (strings.TrimSpace a) = some n →
      -((2 ^ (W.intSize - 1) : Nat) : Int) ≤ n → n < ((2 ^ (W.intSize - 1) : Nat) : Int) →
      LaunchToken W cfg manual kbd ("**key:".toList ++ a) =
        (⟨.ok (), [.Press kbd n]⟩ : Outcome MCfg Sys Kbd)) ∧
    (decimalInt (strings.TrimSpace a) = none →
      ∃ e, LaunchToken W cfg manual kbd ("**key:".toList ++ a) =
        (⟨.error e, []⟩ : Outcome MCfg Sys Kbd)) ∧
    (∀ n : Int, decimalInt (strings.TrimSpace a) = some n →
      n < -((2 ^ (W.intSize - 1) : Nat) : Int) ∨ ((2 ^ (W.intSize - 1) : Nat) : Int) ≤ n →
      ∃ e, LaunchToken W cfg manual kbd ("**key:".toList ++ a) =
        (⟨.error e, []⟩ : Outcome MCfg Sys Kbd)) ∧
    (LaunchToken W cfg manual kbd ("**key:".toList ++ a) =
      (LaunchToken W cfg (!manual) kbd ("**key:".toList ++ a) : Outcome MCfg Sys Kbd)) := by
  have h := LaunchToken_named W cfg manual kbd "key".toList a (by decide)
  have h' := LaunchToken_named W cfg (!manual) kbd "key".toList a (by decide)
  have hl : "**key:".toList ++ a = "**".toList ++ "key".toList ++ ":".toList ++ a := rfl
  rw [hl, h, h']
  refine ⟨fun n hd hlo hhi => ?_, fun hd => ?_, fun n hd hr => ?_, ?_⟩
  · exact runCommand_key_ok W cfg manual kbd _ n
      (strconv.Atoi_of_decimalInt W.intSize hb _ n hd hlo hhi)
  · obtain ⟨e, he⟩ := strconv.Atoi_error_of_none W.intSize hb _ hd
    exact ⟨_, runCommand_key_error W cfg manual kbd _ e he⟩
  · obtain ⟨e, he⟩ := strconv.Atoi_error_of_range W.intSize hb _ n hd hr
    exact ⟨_, runCommand_key_error W cfg manual kbd _ e he⟩
  · cases hat : strconv.Atoi W.intSize (strings.TrimSpace a) with
    | error e =>
      rw [runCommand_key_error W cfg manual kbd _ e hat,
        runCommand_key_error W cfg (!manual) kbd _ e hat]
    | ok n =>
      rw [runCommand_key_ok W cfg manual kbd _ n hat,
        runCommand_key_ok W cfg (!manual) kbd _ n hat]

/-- C11 in the sample world: ` 28 ` presses the key 28 without the flag
`manual`, and `abc` presses nothing. -/
theorem C11_key_witness :
    LaunchToken sampleWorld () false () ("**key:".toList ++ " 28 ".toList) =
      (⟨.ok (), [.Press () 28]⟩ : Outcome Unit Nat Unit) ∧
    ∃ e, LaunchToken sampleWorld () true () ("**key:".toList ++ "abc".toList) =
      (⟨.error e, []⟩ : Outcome Unit Nat Unit) :=
  ⟨(C11_key sampleWorld () false () " 28 ".toList (Or.inr rfl)).1 28 (by decide) (by decide)
      (by decide),
    (C11_key sampleWorld () true () "abc".toList (Or.inr rfl)).2.1 (by decide)⟩

end LauncherKeys

/-! ## The decimal writing of a number is read back as that number -/

theorem Nat.digitChar_val (k : Nat) (h : k < 10) :
    (Nat.digitChar k).toNat - '0'.toNat = k ∧ (Nat.digitChar k).isDigit = true := by
  interval_cases k <;> exact ⟨rfl, rfl⟩

/-- A decimal digit is one of the ten runes `0` to `9`. -/
theorem Char.isDigit_cases (c : Char) (h : c.isDigit = true) :
    c ∈ ['0', '1', '2', '3', '4', '5', '6', '7', '8', '9'] := by
  simp only [Char.isDigit, Bool.and_eq_true, decide_eq_true_eq] at h
  have hlo : 48 ≤ c.val.toNat := h.1
  have hhi : c.val.toNat ≤ 57 := h.2
  have hc : c = Char.ofNat c.toNat := (Char.ofNat_toNat c).symm
  have hv : c.toNat = c.val.toNat := rfl
  rw [hv] at hc
  generalize c.val.toNat = k at hc hlo hhi
  interval_cases k <;> subst hc <;> decide

theorem unicode.digit_not_space (c : Char) (h : c.isDigit = true) :
    unicode.IsSpace c = false := by
  have hc := Char.isDigit_cases c h
  simp only [List.mem_cons, List.mem_singleton, List.not_mem_nil, or_false] at hc
  rcases hc with rfl | rfl | rfl | rfl | rfl | rfl | rfl | rfl | rfl | rfl <;> decide

/-- A string without white space is left as it is by `strings.TrimSpace`. -/
theorem strings.TrimSpace_of_no_space (s : Str) (h : ∀ x ∈ s, unicode.IsSpace x = false) :
    strings.TrimSpace s = s := by
  have hd : ∀ l : Str, (∀ x ∈ l, unicode.IsSpace x = false) →
      l.dropWhile unicode.IsSpace = l := by
    intro l hl
    cases l with
    | nil => rfl
    | cons x l => simp [List.dropWhile_cons, hl x (List.mem_cons_self _ _)]
  unfold strings.TrimSpace List.rdropWhile
  rw [hd s h, hd s.reverse (fun x hx => h x (List.mem_reverse.1 hx)), List.reverse_reverse]

/-- The loop writes the digits of `n` in front of `acc`: read back, they give
`n` as the value on which the reading of `acc` goes on. -/
theorem decimalLoop_value (fuel n : Nat) (acc : Str) (h : n < fuel) :
    (decimalLoop fuel n acc).foldl (fun m c => m * 10 + (c.toNat - '0'.toNat)) 0 =
      acc.foldl (fun m c => m * 10 + (c.toNat - '0'.toNat)) n := by
  induction fuel generalizing n acc with
  | zero => omega
  | succ fuel ih =>
    have hdig := (Nat.digitChar_val (n % 10) (Nat.mod_lt _ (by norm_num))).1
    unfold decimalLoop
    split_ifs with h0
    · simp only [List.foldl_cons, hdig]
      congr 1
      omega
    · rw [ih (n / 10) _ (by omega)]
      simp only [List.foldl_cons, hdig]
      congr 1
      omega

theorem decimalLoop_digits (fuel n : Nat) (acc : Str) (h : acc.all Char.isDigit = true) :
    (decimalLoop fuel n acc).all Char.isDigit = true := by
  induction fuel generalizing n acc with
  | zero => exact h
  | succ fuel ih =>
    have hdig := (Nat.digitChar_val (n % 10) (Nat.mod_lt _ (by norm_num))).2
    unfold decimalLoop
    split_ifs with h0
    · simp [hdig, h]
    · exact ih _ _ (by simp [hdig, h])

theorem decimalLoop_ne_nil (fuel n : Nat) (acc : Str) (h : acc ≠ [] ∨ 0 < fuel) :
    decimalLoop fuel n acc ≠ [] := by
  induction fuel generalizing n acc with
  | zero =>
    rcases h with h | h
    · exact h
    · omega
  | succ fuel ih =>
    unfold decimalLoop
    split_ifs with h0
    · simp
    · exact ih _ _ (Or.inl (by simp))

/-- The decimal writing of `n` is a decimal integer of value `n`, and trimming
leaves it as it is. -/
theorem decimalInt_decimalString (n : Nat) :
    decimalInt (strings.TrimSpace (decimalString n)) = some (n : Int) := by
  have hall : (decimalString n).all Char.isDigit = true := decimalLoop_digits _ _ _ rfl
  have hne : decimalString n ≠ [] := decimalLoop_ne_nil _ _ _ (Or.inr (by omega))
  have hval : decimalValue (decimalString n) = n := by
    unfold decimalValue decimalString
    rw [decimalLoop_value _ _ _ (by omega)]
    rfl
  have hnat : decimalNat (decimalString n) = some n := by
    unfold decimalNat
    rw [if_pos ⟨hne, hall⟩, hval]
  have hsp : ∀ x ∈ decimalString n, unicode.IsSpace x = false := by
    intro x hx
    exact unicode.digit_not_space x (List.all_eq_true.1 hall x hx)
  rw [strings.TrimSpace_of_no_space _ hsp]
  cases hs : decimalString n with
  | nil => exact absurd hs hne
  | cons c cs =>
    rw [hs] at hnat hall
    have hc : c.isDigit = true := by
      simp only [List.all_cons, Bool.and_eq_true] at hall
      exact hall.1
    have hp : c ≠ '+' := by
      rintro rfl
      exact absurd hc (by decide)
    have hm : c ≠ '-' := by
      rintro rfl
      exact absurd hc (by decide)
    simp only [decimalInt, hp, hm, if_false, hnat]
    rfl

section LauncherCoins

variable {Cfg MCfg Sys Kbd : Type}

/-- The coin loop makes `n` rounds of one key press and one pause of 100 ms. -/
theorem coinLoop_eq (kbd : Kbd) (code : Int) (n : Nat) :
    (coinLoop kbd code n : List (Call MCfg Sys Kbd)) =
      (List.replicate n [Call.Press kbd code, Call.Sleep 100]).flatten := by
  induction n with
  | zero => rfl
  | succ n ih => simp [coinLoop, ih, List.replicate_succ]

theorem coinLoop_pressedCodes (kbd : Kbd) (code : Int) (n : Nat) :
    pressedCodes (coinLoop kbd code n : List (Call MCfg Sys Kbd)) = List.replicate n code := by
  induction n with
  | zero => rfl
  | succ n ih => simp [coinLoop, pressedCodes, ih, List.replicate_succ]

theorem coinLoop_elapsedMs (kbd : Kbd) (code : Int) (n : Nat) :
    elapsedMs (coinLoop kbd code n : List (Call MCfg Sys Kbd)) = n * 100 := by
  induction n with
  | zero => rfl
  | succ n ih =>
    simp only [coinLoop, elapsedMs, ih]
    omega

/-- The two coin commands on an argument that `strconv.Atoi` reads or refuses. -/
theorem runCommand_coin (W : World Cfg MCfg Sys) (cfg : Cfg) (manual : Bool) (kbd : Kbd)
    (args : Str) :
    (∀ n : Int, strconv.Atoi W.intSize args = .ok n →
      runCommand W cfg manual kbd "coinp1".toList args =
          (⟨.ok (), coinLoop kbd 6 n.toNat⟩ : Outcome MCfg Sys Kbd) ∧
        runCommand W cfg manual kbd "coinp2".toList args =
          (⟨.ok (), coinLoop kbd 7 n.toNat⟩ : Outcome MCfg Sys Kbd)) ∧
    (∀ e, strconv.Atoi W.intSize args = .error e →
      runCommand W cfg manual kbd "coinp1".toList args =
          (⟨.error (.numError args e), []⟩ : Outcome MCfg Sys Kbd) ∧
        runCommand W cfg manual kbd "coinp2".toList args =
          (⟨.error (.numError args e), []⟩ : Outcome MCfg Sys Kbd)) := by
  have a1 : ¬ "coinp1".toList = "system".toList := by decide
  have a2 : ¬ "coinp1".toList = "command".toList := by decide
  have a3 : ¬ "coinp1".toList = "random".toList := by decide
  have a4 : ¬ "coinp1".toList = "ini".toList := by decide
  have a5 : ¬ "coinp1".toList = "get".toList := by decide
  have a6 : ¬ "coinp1".toList = "key".toList := by decide
  have b1 : ¬ "coinp2".toList = "system".toList := by decide
  have b2 : ¬ "coinp2".toList = "command".toList := by decide
  have b3 : ¬ "coinp2".toList = "random".toList := by decide
  have b4 : ¬ "coinp2".toList = "ini".toList := by decide
  have b5 : ¬ "coinp2".toList = "get".toList := by decide
  have b6 : ¬ "coinp2".toList = "key".toList := by decide
  have b7 : ¬ "coinp2".toList = "coinp1".toList := by decide
  constructor
  · intro n h
    constructor
    · simp only [runCommand, a1, a2, a3, a4, a5, a6, if_false, if_true, h]
    · simp only [runCommand, b1, b2, b3, b4, b5, b6, b7, if_false, if_true, h]
  · intro e h
    constructor
    · simp only [runCommand, a1, a2, a3, a4, a5, a6, if_false, if_true, h]
    · simp only [runCommand, b1, b2, b3, b4, b5, b6, b7, if_false, if_true, h]

/-- C12, as the code has it: the count is an `int`. For every `n ≥ 0` that
an `int` holds, `**coinp1:n` returns success after `n` rounds of one key press
with the code 6 and one pause of 100 ms, so `n` presses and `n * 100` ms of
pauses in all, and `**coinp2:n` gives the same trace with the code 7; the same
holds of every argument whose trimmed form is a decimal integer that an `int`
holds, the number of rounds being its value, or none when the value is zero or
negative. An argument that is no integer, and a decimal integer that no `int`
holds, give an error and no key press. -/
theorem C12_coins (W : World Cfg MCfg Sys) (cfg : Cfg) (manual : Bool) (kbd : Kbd)
    (hb : W.intSize = 32 ∨ W.intSize = 64) :
    (∀ n : Nat, n < 2 ^ (W.intSize - 1) →
      LaunchToken W cfg manual kbd ("**coinp1:".toList ++ decimalString n) =
        (⟨.ok (), (List.replicate n [Call.Press kbd 6, Call.Sleep 100]).flatten⟩ :
          Outcome MCfg Sys Kbd) ∧
      LaunchToken W cfg manual kbd ("**coinp2:".toList ++ decimalString n) =
        (⟨.ok (), (List.replicate n [Call.Press kbd 7, Call.Sleep 100]).flatten⟩ :
          Outcome MCfg Sys Kbd) ∧
      pressedCodes (LaunchToken W cfg manual kbd ("**coinp1:".toList ++ decimalString n)).calls =
        List.replicate n 6 ∧
      n * 100 ≤
        elapsedMs (LaunchToken W cfg manual kbd ("**coinp1:".toList ++ decimalString n)).calls) ∧
    (∀ (a : Str) (m : Int), decimalInt (strings.TrimSpace a) = some m →
      -((2 ^ (W.intSize - 1) : Nat) : Int) ≤ m → m < ((2 ^ (W.intSize - 1) : Nat) : Int) →
      LaunchToken W cfg manual kbd ("**coinp1:".toList ++ a) =
        (⟨.ok (), (List.replicate m.toNat [Call.Press kbd 6, Call.Sleep 100]).flatten⟩ :
          Outcome MCfg Sys Kbd) ∧
      LaunchToken W cfg manual kbd ("**coinp2:".toList ++ a) =
        (⟨.ok (), (List.replicate m.toNat [Call.Press kbd 7, Call.Sleep 100]).flatten⟩ :
          Outcome MCfg Sys Kbd) ∧
      (m ≤ 0 →
        LaunchToken W cfg manual kbd ("**coinp1:".toList ++ a) =
          (⟨.ok (), []⟩ : Outcome MCfg Sys Kbd) ∧
        LaunchToken W cfg manual kbd ("**coinp2:".toList ++ a) =
          (⟨.ok (), []⟩ : Outcome MCfg Sys Kbd))) ∧
    (∀ a : Str, decimalInt (strings.TrimSpace a) = none →
      (∃ e, LaunchToken W cfg manual kbd ("**coinp1:".toList ++ a) =
        (⟨.error e, []⟩ : Outcome MCfg Sys Kbd)) ∧
      ∃ e, LaunchToken W cfg manual kbd ("**coinp2:".toList ++ a) =
        (⟨.error e, []⟩ : Outcome MCfg Sys Kbd)) ∧
    (∀ (a : Str) (m : Int), decimalInt (strings.TrimSpace a) = some m →
      m < -((2 ^ (W.intSize - 1) : Nat) : Int) ∨ ((2 ^ (W.intSize - 1) : Nat) : Int) ≤ m →
      (∃ e, LaunchToken W cfg manual kbd ("**coinp1:".toList ++ a) =
        (⟨.error e, []⟩ : Outcome MCfg Sys Kbd)) ∧
      ∃ e, LaunchToken W cfg manual kbd ("**coinp2:".toList ++ a) =
        (⟨.error e, []⟩ : Outcome MCfg Sys Kbd)) := by
  have h1 : ∀ a : Str, LaunchToken W cfg manual kbd ("**coinp1:".toList ++ a) =
      runCommand W cfg manual kbd "coinp1".toList (strings.TrimSpace a) :=
    fun a => LaunchToken_named W cfg manual kbd "coinp1".toList a (by decide)
  have h2 : ∀ a : Str, LaunchToken W cfg manual kbd ("**coinp2:".toList ++ a) =
      runCommand W cfg manual kbd "coinp2".toList (strings.TrimSpace a) :=
    fun a => LaunchToken_named W cfg manual kbd "coinp2".toList a (by decide)
  have hgen : ∀ (a : Str) (m : Int), decimalInt (strings.TrimSpace a) = some m →
      -((2 ^ (W.intSize - 1) : Nat) : Int) ≤ m → m < ((2 ^ (W.intSize - 1) : Nat) : Int) →
      LaunchToken W cfg manual kbd ("**coinp1:".toList ++ a) =
        (⟨.ok (), (List.replicate m.toNat [Call.Press kbd 6, Call.Sleep 100]).flatten⟩ :
          Outcome MCfg Sys Kbd) ∧
      LaunchToken W cfg manual kbd ("**coinp2:".toList ++ a) =
        (⟨.ok (), (List.replicate m.toNat [Call.Press kbd 7, Call.Sleep 100]).flatten⟩ :
          Outcome MCfg Sys Kbd) := by
    intro a m hd hlo hhi
    have hat := strconv.Atoi_of_decimalInt W.intSize hb _ m hd hlo hhi
    obtain ⟨c1, c2⟩ := (runCommand_coin W cfg manual kbd (strings.TrimSpace a)).1 m hat
    rw [h1, h2, c1, c2, coinLoop_eq, coinLoop_eq]
    exact ⟨rfl, rfl⟩
  have herr : ∀ (a : Str) (e : strconv.Err),
      strconv.Atoi W.intSize (strings.TrimSpace a) = .error e →
      (∃ e, LaunchToken W cfg manual kbd ("**coinp1:".toList ++ a) =
        (⟨.error e, []⟩ : Outcome MCfg Sys Kbd)) ∧
      ∃ e, LaunchToken W cfg manual kbd ("**coinp2:".toList ++ a) =
        (⟨.error e, []⟩ : Outcome MCfg Sys Kbd) := by
    intro a e he
    obtain ⟨c1, c2⟩ := (runCommand_coin W cfg manual kbd (strings.TrimSpace a)).2 e he
    rw [h1, h2, c1, c2]
    exact ⟨⟨_, rfl⟩, ⟨_, rfl⟩⟩
  refine ⟨fun n hn => ?_, fun a m hd hlo hhi => ?_, fun a hd => ?_, fun a m hd hr => ?_⟩
  · have hposZ : (0 : Int) ≤ ((2 ^ (W.intSize - 1) : Nat) : Int) := Int.ofNat_nonneg _
    have hnZ : (n : Int) < ((2 ^ (W.intSize - 1) : Nat) : Int) := Int.ofNat_lt.2 hn
    obtain ⟨c1, c2⟩ := hgen (decimalString n) n (decimalInt_decimalString n) (by omega) hnZ
    rw [Int.toNat_ofNat] at c1 c2
    refine ⟨c1, c2, ?_, ?_⟩
    · rw [c1, ← coinLoop_eq, coinLoop_pressedCodes]
    · rw [c1, ← coinLoop_eq, coinLoop_elapsedMs]
  · obtain ⟨c1, c2⟩ := hgen a m hd hlo hhi
    refine ⟨c1, c2, fun hm => ?_⟩
    have h0 : m.toNat = 0 := by omega
    rw [c1, c2, h0]
    exact ⟨rfl, rfl⟩
  · obtain ⟨e, he⟩ := strconv.Atoi_error_of_none W.intSize hb _ hd
    exact herr a e he
  · obtain ⟨e, he⟩ := strconv.Atoi_error_of_range W.intSize hb _ m hd hr
    exact herr a e he

/-- C12 in the sample world: `**coinp1:3` presses the key 6 three times with
three pauses of 100 ms, and the count `2^63`, which an `int` of 64 bits does
not hold, is refused. -/
theorem C12_coins_witness :
    "**coinp1:".toList ++ decimalString 3 = "**coinp1:3".toList ∧
    (LaunchToken sampleWorld () true () ("**coinp1:".toList ++ decimalString 3) =
      (⟨.ok (), (List.replicate 3 [Call.Press () 6, Call.Sleep 100]).flatten⟩ :
        Outcome Unit Nat Unit) ∧
    LaunchToken sampleWorld () true () ("**coinp2:".toList ++ decimalString 3) =
      (⟨.ok (), (List.replicate 3 [Call.Press () 7, Call.Sleep 100]).flatten⟩ :
        Outcome Unit Nat Unit) ∧
    pressedCodes (LaunchToken sampleWorld () true ()
        ("**coinp1:".toList ++ decimalString 3) : Outcome Unit Nat Unit).calls =
      List.replicate 3 6 ∧
    3 * 100 ≤ elapsedMs (LaunchToken sampleWorld () true ()
        ("**coinp1:".toList ++ decimalString 3) : Outcome Unit Nat Unit).calls) ∧
    ((∃ e, LaunchToken sampleWorld () true ()
        ("**coinp1:".toList ++ "9223372036854775808".toList) =
          (⟨.error e, []⟩ : Outcome Unit Nat Unit)) ∧
      ∃ e, LaunchToken sampleWorld () true ()
        ("**coinp2:".toList ++ "9223372036854775808".toList) =
          (⟨.error e, []⟩ : Outcome Unit Nat Unit)) :=
  ⟨by decide, (C12_coins sampleWorld () true () (Or.inr rfl)).1 3 (by decide),
    (C12_coins sampleWorld () true () (Or.inr rfl)).2.2.2 "9223372036854775808".toList
      9223372036854775808 (by decide) (Or.inr (by decide))⟩

/-- C12 as stated fails: the count `2^63` is an integer `n ≥ 0`, yet on an
`int` of 64 bits `**coinp1:9223372036854775808` presses no key and returns the
range error of `strconv.Atoi`. -/
theorem C12_count_past_int_is_refused :
    (LaunchToken sampleWorld () true () "**coinp1:9223372036854775808".toList :
        Outcome Unit Nat Unit) =
      ⟨.error (.numError "9223372036854775808".toList .ErrRange), []⟩ := by
  decide

end LauncherCoins

/-! ## The launcher: a text that is no command -/

section LauncherPaths

variable {Cfg MCfg Sys Kbd : Type}

/-- The loop over the parts stops at the first part that ends in `.zip`. -/
theorem zipIndex_first (before : List Str) (seg : Str) (after : List Str) (k : Nat)
    (hbefore : ∀ p ∈ before, strings.HasSuffix (strings.ToLower p) ".zip".toList = false)
    (hseg : strings.HasSuffix (strings.ToLower seg) ".zip".toList = true) :
    zipIndex (before ++ seg :: after) k = some (k + before.length) := by
  induction before generalizing k with
  | nil => simp only [List.nil_append, zipIndex, hseg, if_true, List.length_nil, Nat.add_zero]
  | cons p before ih =>
    have hp := hbefore p (List.mem_cons_self _ _)
    have hrest := ih (k + 1) (fun q hq => hbefore q (List.mem_cons_of_mem _ hq))
    have hk : k + (before.length + 1) = k + 1 + before.length := by omega
    simp only [List.cons_append, zipIndex, hp, Bool.false_eq_true, if_false, List.length_cons]
    rw [hk]
    exact hrest

/-- The loop over the parts finds nothing when no part ends in `.zip`. -/
theorem zipIndex_none (parts : List Str) (k : Nat)
    (h : ∀ p ∈ parts, strings.HasSuffix (strings.ToLower p) ".zip".toList = false) :
    zipIndex parts k = none := by
  induction parts generalizing k with
  | nil => rfl
  | cons p parts ih =>
    have hp := h p (List.mem_cons_self _ _)
    simp only [zipIndex, hp, Bool.false_eq_true, if_false]
    exact ih (k + 1) (fun q hq => h q (List.mem_cons_of_mem _ hq))

/-- The loop over the folders stops at the first folder under which `rel`
exists, after one `os.Stat` for each folder up to it. -/
theorem statLoop_found (W : World Cfg MCfg Sys) (rel : Str) (pre : List Str) (root : Str)
    (post : List Str)
    (hpre : ∀ f ∈ pre, W.Stat (filepath.Join [f, rel]) ≠ none)
    (hroot : W.Stat (filepath.Join [root, rel]) = none) :
    (statLoop W rel (pre ++ root :: post) : Option Str × List (Call MCfg Sys Kbd)) =
      (some root, pre.map (fun f => Call.Stat (filepath.Join [f, rel])) ++
        [Call.Stat (filepath.Join [root, rel])]) := by
  induction pre with
  | nil => simp [statLoop, hroot]
  | cons f pre ih =>
    have hf := hpre f (List.mem_cons_self _ _)
    have hrest := ih (fun g hg => hpre g (List.mem_cons_of_mem _ hg))
    cases hst : W.Stat (filepath.Join [f, rel]) with
    | none => exact absurd hst hf
    | some e => simp [statLoop, hst, hrest]

/-- The loop over the folders finds nothing when `rel` exists under none, after
one `os.Stat` for each folder. -/
theorem statLoop_none (W : World Cfg MCfg Sys) (rel : Str) (folders : List Str)
    (h : ∀ f ∈ folders, W.Stat (filepath.Join [f, rel]) ≠ none) :
    (statLoop W rel folders : Option Str × List (Call MCfg Sys Kbd)) =
      (none, folders.map (fun f => Call.Stat (filepath.Join [f, rel]))) := by
  induction folders with
  | nil => rfl
  | cons f folders ih =>
    have hf := h f (List.mem_cons_self _ _)
    have hrest := ih (fun g hg => h g (List.mem_cons_of_mem _ hg))
    cases hst : W.Stat (filepath.Join [f, rel]) with
    | none => exact absurd hst hf
    | some e => simp [statLoop, hst, hrest]

/-- A text without the sentinel is resolved as a path. -/
theorem LaunchToken_path (W : World Cfg MCfg Sys) (cfg : Cfg) (manual : Bool) (kbd : Kbd)
    (text : Str) (h : strings.HasPrefix text "**".toList = false) :
    LaunchToken W cfg manual kbd text = launchPath W cfg text := by
  simp only [LaunchToken, h, Bool.false_eq_true, if_false]

/-- C13: for a text that does not begin with `**`, an absolute path is handed
as it is to `LaunchGenericFile`, and a relative text without a file extension is
handed as it is to `LaunchShortCore`; in both cases this is the only call, so no
content root is probed, and the result of the call is returned: success when
the call gave nil, and the very error the call gave otherwise. -/
theorem C13_absolute_or_short (W : World Cfg MCfg Sys) (cfg : Cfg) (manual : Bool) (kbd : Kbd)
    (text : Str) (hcmd : strings.HasPrefix text "**".toList = false) :
    (filepath.IsAbs text = true →
      (W.LaunchGenericFile (W.UserConfigToMrext cfg) text = none →
        LaunchToken W cfg manual kbd text =
          (⟨.ok (), [.LaunchGenericFile (W.UserConfigToMrext cfg) text]⟩ :
            Outcome MCfg Sys Kbd)) ∧
      (∀ err, W.LaunchGenericFile (W.UserConfigToMrext cfg) text = some err →
        LaunchToken W cfg manual kbd text =
          (⟨.error (.external err), [.LaunchGenericFile (W.UserConfigToMrext cfg) text]⟩ :
            Outcome MCfg Sys Kbd))) ∧
    (filepath.IsAbs text = false → filepath.Ext text = [] →
      (W.LaunchShortCore text = none →
        LaunchToken W cfg manual kbd text =
          (⟨.ok (), [.LaunchShortCore text]⟩ : Outcome MCfg Sys Kbd)) ∧
      (∀ err, W.LaunchShortCore text = some err →
        LaunchToken W cfg manual kbd text =
          (⟨.error (.external err), [.LaunchShortCore text]⟩ : Outcome MCfg Sys Kbd))) := by
  rw [LaunchToken_path W cfg manual kbd text hcmd]
  refine ⟨fun habs => ?_, fun habs hext => ?_⟩
  · have hrun : launchPath W cfg text =
        (⟨returned (W.LaunchGenericFile (W.UserConfigToMrext cfg) text),
          [.LaunchGenericFile (W.UserConfigToMrext cfg) text]⟩ : Outcome MCfg Sys Kbd) := by
      simp only [launchPath, habs, if_true]
    rw [hrun]
    constructor
    · intro hnil
      rw [hnil, returned_none]
    · intro err herr
      rw [herr, returned_some]
  · have hrun : launchPath W cfg text =
        (⟨returned (W.LaunchShortCore text), [.LaunchShortCore text]⟩ :
          Outcome MCfg Sys Kbd) := by
      simp only [launchPath, habs, hext, Bool.false_eq_true, if_false, if_true]
    rw [hrun]
    constructor
    · intro hnil
      rw [hnil, returned_none]
    · intro err herr
      rw [herr, returned_some]

/-- C13 on an absolute path and on a relative text without extension that
holds a `.zip` segment, in the sample world, where the launches succeed, and in
the world where they fail and their errors come back. -/
theorem C13_absolute_or_short_witness :
    LaunchToken sampleWorld () true () "/media/fat/games/NES/a.nes".toList =
      (⟨.ok (), [.LaunchGenericFile (sampleWorld.UserConfigToMrext ())
        "/media/fat/games/NES/a.nes".toList]⟩ : Outcome Unit Nat Unit) ∧
    LaunchToken failingLaunchWorld () true () "/media/fat/games/NES/a.nes".toList =
      (⟨.error (.external "cannot launch file".toList),
        [.LaunchGenericFile (failingLaunchWorld.UserConfigToMrext ())
          "/media/fat/games/NES/a.nes".toList]⟩ : Outcome Unit Nat Unit) ∧
    LaunchToken sampleWorld () true () "games/Foo.zip/bar".toList =
      (⟨.ok (), [.LaunchShortCore "games/Foo.zip/bar".toList]⟩ : Outcome Unit Nat Unit) ∧
    LaunchToken failingLaunchWorld () true () "games/Foo.zip/bar".toList =
      (⟨.error (.external "cannot launch short core".toList),
        [.LaunchShortCore "games/Foo.zip/bar".toList]⟩ : Outcome Unit Nat Unit) :=
  ⟨((C13_absolute_or_short sampleWorld () true () "/media/fat/games/NES/a.nes".toList
      (by decide)).1 (by decide)).1 (by decide),
    ((C13_absolute_or_short failingLaunchWorld () true () "/media/fat/games/NES/a.nes".toList
      (by decide)).1 (by decide)).2 "cannot launch file".toList (by decide),
    ((C13_absolute_or_short sampleWorld () true () "games/Foo.zip/bar".toList
      (by decide)).2 (by decide) (by decide)).1 (by decide),
    ((C13_absolute_or_short failingLaunchWorld () true () "games/Foo.zip/bar".toList
      (by decide)).2 (by decide) (by decide)).2 "cannot launch short core".toList (by decide)⟩

/-- C14: for a relative text with a file extension whose parts between the
slashes are `before`, then `seg`, then `after`, where `seg` is the first part
that ends in `.zip` in any mix of cases: when the path `z` joined from `before`
and `seg` exists under the content root `root` and under none of the roots
listed before it, `LaunchGenericFile` is called on the whole text joined to
`root` and its result is returned; the only probes are those of `z` under the
roots up to `root`. -/
theorem C14_zip_segment (W : World Cfg MCfg Sys) (cfg : Cfg) (manual : Bool) (kbd : Kbd)
    (text : Str) (before : List Str) (seg : Str) (after pre : List Str) (root : Str)
    (post : List Str)
    (hcmd : strings.HasPrefix text "**".toList = false)
    (habs : filepath.IsAbs text = false) (hext : filepath.Ext text ≠ [])
    (hsplit : strings.Split '/' text = before ++ seg :: after)
    (hbefore : ∀ p ∈ before, strings.HasSuffix (strings.ToLower p) ".zip".toList = false)
    (hseg : strings.HasSuffix (strings.ToLower seg) ".zip".toList = true)
    (hroots : W.GetGamesFolders (W.UserConfigToMrext cfg) = pre ++ root :: post)
    (hpre : ∀ f ∈ pre, W.Stat (filepath.Join [f, filepath.Join (before ++ [seg])]) ≠ none)
    (hroot : W.Stat (filepath.Join [root, filepath.Join (before ++ [seg])]) = none) :
    LaunchToken W cfg manual kbd text =
      (⟨returned (W.LaunchGenericFile (W.UserConfigToMrext cfg) (filepath.Join [root, text])),
        .GetGamesFolders (W.UserConfigToMrext cfg) ::
          (pre.map (fun f => Call.Stat (filepath.Join [f, filepath.Join (before ++ [seg])])) ++
            [.Stat (filepath.Join [root, filepath.Join (before ++ [seg])]),
              .LaunchGenericFile (W.UserConfigToMrext cfg) (filepath.Join [root, text])])⟩ :
        Outcome MCfg Sys Kbd) := by
  rw [LaunchToken_path W cfg manual kbd text hcmd]
  have hzi := zipIndex_first before seg after 0 hbefore hseg
  have htake : (before ++ seg :: after).take (0 + before.length + 1) = before ++ [seg] := by
    rw [Nat.zero_add, List.take_append_eq_append_take]
    simp
  have hst := @statLoop_found Cfg MCfg Sys Kbd W (filepath.Join (before ++ [seg])) pre root post
    hpre hroot
  simp only [launchPath, habs, hext, Bool.false_eq_true, if_false, hsplit, hzi, htake, hroots,
    hst]
  simp

/-- C14 in the sample world, where only `games/Foo.zip` exists, under the
second root: `games/Foo.zip/bar.rom` is launched from the second root after two
probes of the archive. -/
theorem C14_zip_segment_witness :
    LaunchToken sampleWorld () true () "games/Foo.zip/bar.rom".toList =
      (⟨.ok (),
        [.GetGamesFolders (), .Stat "/media/fat/games/Foo.zip".toList,
          .Stat "/media/usb0/games/Foo.zip".toList,
          .LaunchGenericFile () "/media/usb0/games/Foo.zip/bar.rom".toList]⟩ :
        Outcome Unit Nat Unit) :=
  (C14_zip_segment sampleWorld () true () "games/Foo.zip/bar.rom".toList
    ["games".toList] "Foo.zip".toList ["bar.rom".toList] ["/media/fat".toList]
    "/media/usb0".toList [] (by decide) (by decide) (by decide) (by decide) (by decide)
    (by decide) (by decide) (by decide) (by decide)).trans (by decide)

/-- The last loop launches from the first folder under which the text exists. -/
theorem launchWholePath_found (W : World Cfg MCfg Sys) (cfg : Cfg) (text : Str)
    (pre : List Str) (root : Str) (post : List Str)
    (hroots : W.GetGamesFolders (W.UserConfigToMrext cfg) = pre ++ root :: post)
    (hpre : ∀ f ∈ pre, W.Stat (filepath.Join [f, text]) ≠ none)
    (hroot : W.Stat (filepath.Join [root, text]) = none) :
    launchWholePath W cfg text =
      (⟨returned (W.LaunchGenericFile (W.UserConfigToMrext cfg) (filepath.Join [root, text])),
        .GetGamesFolders (W.UserConfigToMrext cfg) ::
          (pre.map (fun f => Call.Stat (filepath.Join [f, text])) ++
            [.Stat (filepath.Join [root, text]),
              .LaunchGenericFile (W.UserConfigToMrext cfg) (filepath.Join [root, text])])⟩ :
        Outcome MCfg Sys Kbd) := by
  have hst := @statLoop_found Cfg MCfg Sys Kbd W text pre root post hpre hroot
  simp only [launchWholePath, hroots, hst]
  simp

/-- The last loop reports the text as not found when it exists under no folder. -/
theorem launchWholePath_none (W : World Cfg MCfg Sys) (cfg : Cfg) (text : Str)
    (hnone : ∀ f ∈ W.GetGamesFolders (W.UserConfigToMrext cfg),
      W.Stat (filepath.Join [f, text]) ≠ none) :
    launchWholePath W cfg text =
      (⟨.error (.couldNotFindFile text),
        .GetGamesFolders (W.UserConfigToMrext cfg) ::
          (W.GetGamesFolders (W.UserConfigToMrext cfg)).map
            (fun f => Call.Stat (filepath.Join [f, text]))⟩ : Outcome MCfg Sys Kbd) := by
  have hst := @statLoop_none Cfg MCfg Sys Kbd W text _ hnone
  simp only [launchWholePath, hst]

/-- C15: for a relative text with a file extension none of whose parts ends in
`.zip`: when the text exists under the content root `root` and under none of
the roots listed before it, `LaunchGenericFile` is called on the text joined to
`root` and its result is returned; when it exists under no root, or there is no
root, the error `could not find file` is returned and the only calls are the
listing of the roots and one probe for each root. -/
theorem C15_whole_path (W : World Cfg MCfg Sys) (cfg : Cfg) (manual : Bool) (kbd : Kbd)
    (text : Str)
    (hcmd : strings.HasPrefix text "**".toList = false)
    (habs : filepath.IsAbs text = false) (hext : filepath.Ext text ≠ [])
    (hnozip : ∀ p ∈ strings.Split '/' text,
      strings.HasSuffix (strings.ToLower p) ".zip".toList = false) :
    (∀ (pre : List Str) (root : Str) (post : List Str),
      W.GetGamesFolders (W.UserConfigToMrext cfg) = pre ++ root :: post →
      (∀ f ∈ pre, W.Stat (filepath.Join [f, text]) ≠ none) →
      W.Stat (filepath.Join [root, text]) = none →
      LaunchToken W cfg manual kbd text =
        (⟨returned (W.LaunchGenericFile (W.UserConfigToMrext cfg) (filepath.Join [root, text])),
          .GetGamesFolders (W.UserConfigToMrext cfg) ::
            (pre.map (fun f => Call.Stat (filepath.Join [f, text])) ++
              [.Stat (filepath.Join [root, text]),
                .LaunchGenericFile (W.UserConfigToMrext cfg) (filepath.Join [root, text])])⟩ :
          Outcome MCfg Sys Kbd)) ∧
    ((∀ f ∈ W.GetGamesFolders (W.UserConfigToMrext cfg),
        W.Stat (filepath.Join [f, text]) ≠ none) →
      LaunchToken W cfg manual kbd text =
        (⟨.error (.couldNotFindFile text),
          .GetGamesFolders (W.UserConfigToMrext cfg) ::
            (W.GetGamesFolders (W.UserConfigToMrext cfg)).map
              (fun f => Call.Stat (filepath.Join [f, text]))⟩ : Outcome MCfg Sys Kbd)) := by
  have hpath : LaunchToken W cfg manual kbd text =
      (launchWholePath W cfg text : Outcome MCfg Sys Kbd) := by
    rw [LaunchToken_path W cfg manual kbd text hcmd]
    simp only [launchPath, habs, hext, Bool.false_eq_true, if_false,
      zipIndex_none _ 0 hnozip]
  rw [hpath]
  exact ⟨fun pre root post hroots hpre hroot =>
      launchWholePath_found W cfg text pre root post hroots hpre hroot,
    fun hnone => launchWholePath_none W cfg text hnone⟩

/-- C15 where `games/NES/mario.nes` exists under the second root only, and in
the sample world, where `nosuchfile.rom` exists under neither root. -/
theorem C15_whole_path_witness :
    LaunchToken romWorld () true () "games/NES/mario.nes".toList =
      (⟨.ok (),
        [.GetGamesFolders (), .Stat "/media/fat/games/NES/mario.nes".toList,
          .Stat "/media/usb0/games/NES/mario.nes".toList,
          .LaunchGenericFile () "/media/usb0/games/NES/mario.nes".toList]⟩ :
        Outcome Unit Nat Unit) ∧
    LaunchToken sampleWorld () true () "nosuchfile.rom".toList =
      (⟨.error (.couldNotFindFile "nosuchfile.rom".toList),
        [.GetGamesFolders (), .Stat "/media/fat/nosuchfile.rom".toList,
          .Stat "/media/usb0/nosuchfile.rom".toList]⟩ : Outcome Unit Nat Unit) :=
  ⟨((C15_whole_path romWorld () true () "games/NES/mario.nes".toList (by decide) (by decide)
      (by decide) (by decide)).1 ["/media/fat".toList] "/media/usb0".toList [] (by decide)
      (by decide) (by decide)).trans (by decide),
    ((C15_whole_path sampleWorld () true () "nosuchfile.rom".toList (by decide) (by decide)
      (by decide) (by decide)).2 (by decide)).trans (by decide)⟩

end LauncherPaths

/-! ## The state store: the flags, the database and the getters -/

/-- No call of the store clears the stop flag. -/
theorem State.step_stopService (s : State) (op : Op) (h : s.stopService = true) :
    (s.step op).stopService = true := by
  cases op with
  | setActiveCard card =>
    simp only [State.step, State.SetActiveCard]
    split <;> exact h
  | disableLauncher e => cases e <;> exact h
  | enableLauncher e => cases e <;> exact h
  | stopService => rfl
  | _ => exact h

theorem State.run_stopService (ops : List Op) (s : State) (h : s.stopService = true) :
    (s.run ops).stopService = true := by
  induction ops generalizing s with
  | nil => exact h
  | cons op ops ih => exact ih _ (State.step_stopService s op h)

/-- C16: from any store, once `StopService()` was called `ShouldStopService()`
returns true after every sequence of further calls; in the zero-value store it
returns false. -/
theorem C16_stop_latch (s : State) (ops : List Op) :
    ((s.StopService).run ops).ShouldStopService = true ∧
    State.zero.ShouldStopService = false :=
  ⟨State.run_stopService ops s.StopService rfl, rfl⟩

/-- C17: whether the operation on the marker file succeeds or fails, the flag
reads true after `DisableLauncher()` and false after `EnableLauncher()`, and
the store is the same either way; a failure only adds one line to the log, the
two methods having no error to return. -/
theorem C17_launcher_flag (s : State) (fileErr : Option String) :
    (s.DisableLauncher fileErr).1.IsLauncherDisabled = true ∧
    (s.EnableLauncher fileErr).1.IsLauncherDisabled = false ∧
    (s.DisableLauncher fileErr).1 = (s.DisableLauncher none).1 ∧
    (s.EnableLauncher fileErr).1 = (s.EnableLauncher none).1 ∧
    ((s.DisableLauncher fileErr).2 =
      (fileErr.map LogLine.cannotCreateDisableLaunchFile).toList) ∧
    ((s.EnableLauncher fileErr).2 =
      (fileErr.map LogLine.cannotRemoveDisableLaunchFile).toList) := by
  cases fileErr <;> exact ⟨rfl, rfl, rfl, rfl, rfl, rfl⟩

/-- C18: after `SetDB(u, t)`, `GetDB()` returns `(u, t)`; the load time is the
reading of the clock inside the call, so with a clock that never goes back it
is not before any reading `before` taken ahead of the call; the other fields of
the store are as they were. -/
theorem C18_SetDB (s : State) (before now : Time) (u t : StrMap) (hclock : before ≤ now) :
    (s.SetDB now u t).GetDB = (u, t) ∧
    before ≤ (s.SetDB now u t).GetDBLoadTime ∧
    (s.SetDB now u t).activeCard = s.activeCard ∧
    (s.SetDB now u t).lastScanned = s.lastScanned ∧
    (s.SetDB now u t).stopService = s.stopService ∧
    (s.SetDB now u t).disableLauncher = s.disableLauncher :=
  ⟨rfl, hclock, rfl, rfl, rfl, rfl⟩

/-- C18 on a store that holds a scan, with the clock at 30 before the call and
at 31 inside it. -/
theorem C18_SetDB_witness :
    ((State.zero.SetActiveCard sampleCard).SetDB 31 sampleUidMap sampleTextMap).GetDB =
      (sampleUidMap, sampleTextMap) ∧
    (30 : Time) ≤
      ((State.zero.SetActiveCard sampleCard).SetDB 31 sampleUidMap sampleTextMap).GetDBLoadTime :=
  ⟨(C18_SetDB (State.zero.SetActiveCard sampleCard) 30 31 sampleUidMap sampleTextMap
      (by decide)).1,
    (C18_SetDB (State.zero.SetActiveCard sampleCard) 30 31 sampleUidMap sampleTextMap
      (by decide)).2.1⟩

/-- A getter leaves the store as it is. -/
theorem State.step_read (s : State) (op : Op) (h : op.isRead = true) : s.step op = s := by
  cases op <;> first | rfl | (simp [Op.isRead] at h)

/-- C19: each of the six getters leaves every field of the store as it is, so
after any sequence of getters the store is the same, and `GetActiveCard` and
`GetDB` return what they returned before. -/
theorem C19_getters_write_nothing (s : State) (ops : List Op)
    (hread : ∀ op ∈ ops, op.isRead = true) :
    s.run ops = s ∧
    (s.run ops).GetActiveCard = s.GetActiveCard ∧
    (s.run ops).GetDB = s.GetDB := by
  have hrun : s.run ops = s := by
    induction ops with
    | nil => rfl
    | cons op ops ih =>
      rw [State.run_cons, State.step_read s op (hread op (List.mem_cons_self _ _))]
      exact ih (fun o ho => hread o (List.mem_cons_of_mem _ ho))
  rw [hrun]
  exact ⟨rfl, rfl, rfl⟩

/-- C19 on a store that holds a scan and a database, read by all six getters. -/
theorem C19_getters_write_nothing_witness :
    (((State.zero.SetActiveCard sampleCard).SetDB 31 sampleUidMap sampleTextMap).run
      [Op.getActiveCard, Op.getLastScanned, Op.shouldStopService, Op.isLauncherDisabled,
        Op.getDB, Op.getDBLoadTime, Op.getActiveCard, Op.getDB]).GetActiveCard =
      ((State.zero.SetActiveCard sampleCard).SetDB 31 sampleUidMap sampleTextMap).GetActiveCard :=
  (C19_getters_write_nothing
    ((State.zero.SetActiveCard sampleCard).SetDB 31 sampleUidMap sampleTextMap)
    [Op.getActiveCard, Op.getLastScanned, Op.shouldStopService, Op.isLauncherDisabled,
      Op.getDB, Op.getDBLoadTime, Op.getActiveCard, Op.getDB] (by decide)).2.1

end Tapto
